import Mathlib

/-!
# x11wdump: a verification development

A shallow embedding of `x11wdump.c` (Event2sz, DumpWindow, main) and theorems about it.

Modelling conventions.
* A C string held in a `char[LNSZ]` buffer is modelled by its contents, a `String`
  (the characters before the terminating NUL). The capacity of a buffer is not part
  of its model: that the contents fit is a statement of its own about lengths and
  `LNSZ` (`EventFits`, `szEventOf` for `szEvent`). The statements on the name field and
  on the mask fields carry the fit of the event list as a hypothesis; the statements on
  the walk describe each record as `lineOf` gives it.
* The data of a property reply may hold NUL bytes; `cText` is the C string the program
  reads from it.
* `long`, `int` are `Int`; `Window` and `Atom` (`unsigned long`) are `Nat`; the depth
  `iLevel` is a `Nat` (the walk starts at 0 and only increments it).
* The display server is a record of three query functions; a query that the C code
  reads through out-parameters returns a record of those out-parameters.
* The output `FILE` is the text written to it so far; the global `gszErr` is threaded
  through together with it.
* What `main` finds around it (the clock, `fopen`, `XOpenDisplay`, `XInternAtom`) is a
  record `Env`; a run leaves an `Outcome`: exit status, standard output, file contents.
* `printf` conversions `%d`, `%lX`, `%s` are modelled by `fmtD`, `fmtlX` and the string
  itself.
-/

namespace X11wdump

/-! ## Constants of the program -/

def ERROR_WDUMP_SYS : Int := 1
def ERROR_WDUMP_X11 : Int := 2
def LNSZ : Nat := 200
def WDUMP_MAXLEVEL : Nat := 10

/-! ## Constants of the X11 protocol headers (`X.h`), used by the program -/

def KeyPressMask : Int := 2 ^ 0
def KeyReleaseMask : Int := 2 ^ 1
def ButtonPressMask : Int := 2 ^ 2
def ButtonReleaseMask : Int := 2 ^ 3
def EnterWindowMask : Int := 2 ^ 4
def LeaveWindowMask : Int := 2 ^ 5
def PointerMotionMask : Int := 2 ^ 6
def PointerMotionHintMask : Int := 2 ^ 7
def Button1MotionMask : Int := 2 ^ 8
def Button2MotionMask : Int := 2 ^ 9
def Button3MotionMask : Int := 2 ^ 10
def Button4MotionMask : Int := 2 ^ 11
def Button5MotionMask : Int := 2 ^ 12
def ButtonMotionMask : Int := 2 ^ 13
def KeymapStateMask : Int := 2 ^ 14
def ExposureMask : Int := 2 ^ 15
def VisibilityChangeMask : Int := 2 ^ 16
def StructureNotifyMask : Int := 2 ^ 17
def ResizeRedirectMask : Int := 2 ^ 18
def SubstructureNotifyMask : Int := 2 ^ 19
def SubstructureRedirectMask : Int := 2 ^ 20
def FocusChangeMask : Int := 2 ^ 21
def PropertyChangeMask : Int := 2 ^ 22
def ColormapChangeMask : Int := 2 ^ 23
def OwnerGrabButtonMask : Int := 2 ^ 24

def InputOutput : Int := 1
def InputOnly : Int := 2
def IsUnmapped : Int := 0
def IsUnviewable : Int := 1
def IsViewable : Int := 2
def Success : Int := 0

/-! ## Event2sz -/

/-- One block of `Event2sz` after the first:
`if (iEvMask & mask) { if (*pEvent) strcat(pEvent, "|"); strcat(pEvent, name); }`. -/
def catEvent (iEvMask mask : Int) (name : String) (pEvent : String) : String :=
  if Int.land iEvMask mask ≠ 0 then
    (if pEvent ≠ "" then pEvent ++ "|" else pEvent) ++ name
  else pEvent

/-- The function `Event2sz(iEvMask, pEvent)`: the contents of `pEvent` on return. -/
def Event2sz (iEvMask : Int) : String :=
  let pEvent := ""
  let pEvent := if Int.land iEvMask KeyPressMask ≠ 0 then "KeyPrs" else pEvent
  let pEvent := catEvent iEvMask KeyReleaseMask "KeyRel" pEvent
  let pEvent := catEvent iEvMask ButtonPressMask "ButPrs" pEvent
  let pEvent := catEvent iEvMask ButtonReleaseMask "ButRel" pEvent
  let pEvent := catEvent iEvMask EnterWindowMask "EntWin" pEvent
  let pEvent := catEvent iEvMask LeaveWindowMask "LeavWin" pEvent
  let pEvent := catEvent iEvMask PointerMotionMask "PntrMot" pEvent
  let pEvent := catEvent iEvMask PointerMotionHintMask "PntrMotHint" pEvent
  let pEvent := catEvent iEvMask Button1MotionMask "But1Mot" pEvent
  let pEvent := catEvent iEvMask Button2MotionMask "But2Mot" pEvent
  let pEvent := catEvent iEvMask Button3MotionMask "But3Mot" pEvent
  let pEvent := catEvent iEvMask Button4MotionMask "But4Mot" pEvent
  let pEvent := catEvent iEvMask Button5MotionMask "But5Mot" pEvent
  let pEvent := catEvent iEvMask ButtonMotionMask "ButMot" pEvent
  let pEvent := catEvent iEvMask KeymapStateMask "KeymapState" pEvent
  let pEvent := catEvent iEvMask ExposureMask "Expos" pEvent
  let pEvent := catEvent iEvMask VisibilityChangeMask "VisChng" pEvent
  let pEvent := catEvent iEvMask StructureNotifyMask "StrNot" pEvent
  let pEvent := catEvent iEvMask ResizeRedirectMask "ResizRedir" pEvent
  let pEvent := catEvent iEvMask SubstructureNotifyMask "SubstrNot" pEvent
  let pEvent := catEvent iEvMask SubstructureRedirectMask "SubstrRedir" pEvent
  let pEvent := catEvent iEvMask FocusChangeMask "FocChng" pEvent
  let pEvent := catEvent iEvMask PropertyChangeMask "PropChng" pEvent
  let pEvent := catEvent iEvMask ColormapChangeMask "CmapChng" pEvent
  let pEvent := catEvent iEvMask OwnerGrabButtonMask "OwnGrbBut" pEvent
  pEvent

/-- The canonical order of the specification: bit number and symbolic name. -/
def canonicalNames : List (Nat × String) :=
  [(0, "KeyPrs"), (1, "KeyRel"), (2, "ButPrs"), (3, "ButRel"), (4, "EntWin"),
   (5, "LeavWin"), (6, "PntrMot"), (7, "PntrMotHint"), (8, "But1Mot"), (9, "But2Mot"),
   (10, "But3Mot"), (11, "But4Mot"), (12, "But5Mot"), (13, "ButMot"),
   (14, "KeymapState"), (15, "Expos"), (16, "VisChng"), (17, "StrNot"),
   (18, "ResizRedir"), (19, "SubstrNot"), (20, "SubstrRedir"), (21, "FocChng"),
   (22, "PropChng"), (23, "CmapChng"), (24, "OwnGrbBut")]

/-- The names of the known bits that are set in `m`, in canonical order. -/
def setNames (m : Int) : List String :=
  (canonicalNames.filter (fun p => m.testBit p.1)).map Prod.snd

/-- The list `Event2sz` decodes from `m` fits, with its terminating NUL, the `LNSZ`
bytes of the buffer `szEvent` that `DumpWindow` passes to it. -/
def EventFits (m : Int) : Prop :=
  (Event2sz m).length + 1 ≤ LNSZ

/-- The contents of `szEvent` after `Event2sz(attrib.all_event_masks, szEvent)` as the
source determines them: `none` when the call writes past the end of the buffer. -/
def szEventOf (m : Int) : Option String :=
  if (Event2sz m).length + 1 ≤ LNSZ then some (Event2sz m) else none

/-! ## printf conversions -/

/-- The conversion `%d` of an `int`. -/
def fmtD (v : Int) : String :=
  if v < 0 then "-" ++ Nat.repr v.natAbs else Nat.repr v.natAbs

/-- One uppercase hexadecimal digit. -/
def hexDigitChar (d : Nat) : Char :=
  if d = 0 then '0' else
  if d = 1 then '1' else
  if d = 2 then '2' else
  if d = 3 then '3' else
  if d = 4 then '4' else
  if d = 5 then '5' else
  if d = 6 then '6' else
  if d = 7 then '7' else
  if d = 8 then '8' else
  if d = 9 then '9' else
  if d = 10 then 'A' else
  if d = 11 then 'B' else
  if d = 12 then 'C' else
  if d = 13 then 'D' else
  if d = 14 then 'E' else 'F'

/-- Hexadecimal digits of `n`, most significant first, in front of `acc`; at most
`fuel` digits are produced. -/
def hexCore : Nat → Nat → List Char → List Char
  | 0, _, acc => acc
  | fuel + 1, n, acc =>
      let acc1 := hexDigitChar (n % 16) :: acc
      if n / 16 = 0 then acc1 else hexCore fuel (n / 16) acc1

/-- The conversion `%lX` of a 64-bit `long` or `unsigned long` (sixteen digits at most). -/
def fmtlX (v : Int) : String :=
  ⟨hexCore 16 (v % 2 ^ 64).toNat []⟩

/-! ## The display server -/

abbrev Window := Nat
abbrev Atom := Nat

/-- The fields of `XWindowAttributes` the program reads. -/
structure XWindowAttributes where
  x : Int
  y : Int
  width : Int
  height : Int
  root : Window
  «class» : Int
  map_state : Int
  all_event_masks : Int
  your_event_mask : Int
  override_redirect : Int
deriving DecidableEq, Repr

/-- What `XGetWindowProperty` hands back: its return value and the buffer stored in
`pProperty` (`none` is `NULL`); the buffer is given by the data bytes, after which Xlib
stores a NUL. -/
structure PropertyReply where
  iRet : Int
  pProperty : Option String
deriving DecidableEq, Repr

/-- What `XQueryTree` hands back: its return value and the out-parameters `wRoot`,
`wParent`, `pChildren` (`none` is `NULL`); `nChildren` is the length of the array. -/
structure TreeReply where
  iRet : Int
  wRoot : Window
  wParent : Window
  pChildren : Option (List Window)
deriving DecidableEq, Repr

/-- A display server, as far as `DumpWindow` can observe it.
`XGetWindowAttributes w` is `none` when the call returns 0.
`XGetWindowProperty w property long_offset long_length delete req_type`. -/
structure Server where
  XGetWindowAttributes : Window → Option XWindowAttributes
  XGetWindowProperty : Window → Atom → Int → Int → Bool → Atom → PropertyReply
  XQueryTree : Window → TreeReply

/-- The mutable state the program writes: the text written to `pFile` and `gszErr`. -/
structure State where
  file : String
  gszErr : String
deriving DecidableEq, Repr

/-- The state after `fprintf(pFile, ...)` has written `text`. -/
def State.write (st : State) (text : String) : State :=
  { st with file := st.file ++ text }

/-! ## DumpWindow -/

/-- The loop `while (i) { i--; szSpace[i] = ' '; }` run from `i` with the text `acc`
already in place at positions `i` and up. -/
def fillSpace : Nat → List Char → List Char
  | 0, acc => acc
  | i + 1, acc => fillSpace i (' ' :: acc)

/-- The contents of `szSpace` after `i = iLevel * 2; szSpace[i] = 0;` and the loop. -/
def szSpaceOf (iLevel : Nat) : String :=
  ⟨fillSpace (iLevel * 2) []⟩

/-- The C string at the start of a buffer: the bytes before the first NUL. -/
def cText (buf : String) : String :=
  ⟨buf.data.takeWhile (fun c => c ≠ '\x00')⟩

/-- The contents of `dst` after `strncpy(dst, src, n); dst[n] = 0;`. -/
def strncpyz (src : String) (n : Nat) : String :=
  ⟨(cText src).data.take n⟩

/-- The contents of `szName` when the line is written. -/
def szNameOf (prop : PropertyReply) : String :=
  match prop.pProperty with
  | some p => if prop.iRet = Success then strncpyz p (LNSZ - 1) else ""
  | none => ""

/-- The contents of `szClass`. -/
def szClassOf (c : Int) : String :=
  if c = InputOutput then "InputOutput"
  else if c = InputOnly then "InputOnly"
  else fmtD c

/-- The contents of `szState`. -/
def szStateOf (s : Int) : String :=
  if s = IsUnmapped then "IsUnmapped"
  else if s = IsUnviewable then "IsUnviewable"
  else if s = IsViewable then "IsViewable"
  else fmtD s

/-- The text of the first `fprintf`: `"%sw:0x%lX "`. -/
def headText (szSpace : String) (w : Window) : String :=
  szSpace ++ "w:0x" ++ fmtlX w ++ " "

/-- The text of the second `fprintf`, guarded by `if (*szName)`: `"NAME:%s "`. -/
def nameText (szName : String) : String :=
  if szName ≠ "" then "NAME:" ++ szName ++ " " else ""

/-- The text of the third `fprintf`. -/
def attrText (attrib : XWindowAttributes) (wParent : Window)
    (szClass szState szEvent : String) : String :=
  "x:" ++ fmtD attrib.x ++ " y:" ++ fmtD attrib.y ++ " width:" ++ fmtD attrib.width
    ++ " h:" ++ fmtD attrib.height ++ " parent:0x" ++ fmtlX wParent
    ++ " root:0x" ++ fmtlX attrib.root ++ " class:" ++ szClass ++ " state:" ++ szState
    ++ " allEvents:0x" ++ fmtlX attrib.all_event_masks ++ "(" ++ szEvent ++ ")"
    ++ " yourEvents:0x" ++ fmtlX attrib.your_event_mask
    ++ " overrideRedirect:" ++ fmtD attrib.override_redirect ++ "\n"

/-- Everything `DumpWindow` writes for the window itself, given what the three queries
handed back. The list of event names is taken as `Event2sz` decodes it, whatever its
length: this is the record of the source when the list fits `szEvent` (`EventFits`); for
a longer list the source writes past the end of `szEvent` (`szEventOf` is `none`) and
does not determine the record. -/
def lineOf (iLevel : Nat) (w : Window) (attrib : XWindowAttributes)
    (prop : PropertyReply) (wParent : Window) : String :=
  headText (szSpaceOf iLevel) w ++ nameText (szNameOf prop)
    ++ attrText attrib wParent (szClassOf attrib.class) (szStateOf attrib.map_state)
        (Event2sz attrib.all_event_masks)

/-- The loop `for (i = 0; i < nChildren && !iErr; i++) iErr = visit(pChildren[i]);`
over the children still to do, from the current `iErr` and state. -/
def childLoop (visit : Window → State → Int × State) :
    List Window → Int → State → Int × State
  | [], iErr, st => (iErr, st)
  | c :: rest, iErr, st =>
      if iErr = 0 then
        let r := visit c st
        childLoop visit rest r.1 r.2
      else (iErr, st)

/-- The body of `DumpWindow`, by recursion on `levelsLeft = WDUMP_MAXLEVEL - iLevel`. -/
def dumpLevels (srv : Server) (aName aTypeStr : Atom) :
    Nat → Window → Nat → State → Int × State
  | levelsLeft, w, iLevel, st =>
    match srv.XGetWindowAttributes w with
    | none =>
        (ERROR_WDUMP_X11,
          { st with gszErr := "XGetWindowAttributes(w:0x" ++ fmtlX w ++ ") failed!" })
    | some attrib =>
        let prop := srv.XGetWindowProperty w aName 0 4 false aTypeStr
        let tree := srv.XQueryTree w
        let st1 := st.write (lineOf iLevel w attrib prop tree.wParent)
        match levelsLeft with
        | 0 => (0, st1)
        | r + 1 =>
            if iLevel < WDUMP_MAXLEVEL ∧ tree.iRet ≠ 0 then
              match tree.pChildren with
              | some (c :: cs) =>
                  childLoop (fun ch s => dumpLevels srv aName aTypeStr r ch (iLevel + 1) s)
                    (c :: cs) 0 st1
              | _ => (0, st1)
            else (0, st1)

/-- The function `DumpWindow(pFile, pX11Display, w, aName, aTypeStr, iLevel)`: its
return value and the state after it. -/
def DumpWindow (srv : Server) (w : Window) (aName aTypeStr : Atom) (iLevel : Nat)
    (st : State) : Int × State :=
  dumpLevels srv aName aTypeStr (WDUMP_MAXLEVEL - iLevel) w iLevel st

/-! ## Auxiliary definitions for the statements -/

/-- The blocks of `Event2sz` run over a table of bit numbers and names. -/
def catAll (m : Int) : List (Nat × String) → String → String
  | [], p => p
  | e :: t, p => catAll m t (catEvent m (2 ^ e.1) e.2 p)

/-- The names of a table whose bit is set in `m`. -/
def namesOf (m : Int) (tbl : List (Nat × String)) : List String :=
  (tbl.filter (fun p => m.testBit p.1)).map Prod.snd

/-! ## Window trees, for the statements about the walk -/

/-- A window tree as the walk can meet it: a window whose attribute query succeeds, with
what the three queries hand back for it and its children in the order of enumeration, or
a window whose attribute query fails. -/
inductive WTree where
  | window (w : Window) (attrib : XWindowAttributes) (prop : PropertyReply)
      (wParent : Window) (kids : List WTree)
  | broken (w : Window)

/-- The handle of the window at the top of a tree. -/
def WTree.handle : WTree → Window
  | .window w _ _ _ _ => w
  | .broken w => w

/-- Whether the attribute query succeeds for the window at the top. -/
def WTree.isWindow : WTree → Bool
  | .window _ _ _ _ _ => true
  | .broken _ => false

mutual
/-- The number of levels below the top of a tree. -/
def WTree.height : WTree → Nat
  | .window _ _ _ _ kids => WTree.heightKids kids
  | .broken _ => 0
/-- One more than the largest height in a list of trees, 0 for no tree. -/
def WTree.heightKids : List WTree → Nat
  | [] => 0
  | k :: ks => max (k.height + 1) (WTree.heightKids ks)
end

mutual
/-- The number of windows of a tree. -/
def WTree.size : WTree → Nat
  | .window _ _ _ _ kids => 1 + WTree.sizeKids kids
  | .broken _ => 1
/-- The number of windows of a list of trees. -/
def WTree.sizeKids : List WTree → Nat
  | [] => 0
  | k :: ks => k.size + WTree.sizeKids ks
end

mutual
/-- Whether no attribute query fails in a tree. -/
def WTree.allWindows : WTree → Bool
  | .window _ _ _ _ kids => WTree.allWindowsKids kids
  | .broken _ => false
/-- Whether no attribute query fails in a list of trees. -/
def WTree.allWindowsKids : List WTree → Bool
  | [] => true
  | k :: ks => k.allWindows && WTree.allWindowsKids ks
end

mutual
/-- The windows of a tree in pre-order, a node before its children and the children in
their order, each with its depth when the top is at depth `d`. -/
def WTree.preorder : WTree → Nat → List (Nat × WTree)
  | .window w attrib prop wParent kids, d =>
      (d, .window w attrib prop wParent kids) :: WTree.preorderKids kids (d + 1)
  | .broken w, d => [(d, .broken w)]
/-- The windows of a list of trees in pre-order, tree after tree. -/
def WTree.preorderKids : List WTree → Nat → List (Nat × WTree)
  | [], _ => []
  | k :: ks, d => k.preorder d ++ WTree.preorderKids ks d
end

/-- The line of a window met at a depth (no text for a window whose attribute query
fails). -/
def nodeLine : Nat × WTree → String
  | (d, .window w attrib prop wParent _) => lineOf d w attrib prop wParent
  | (_, .broken _) => ""

/-- The lines of the windows of a pre-order list that come before the first window whose
attribute query fails. -/
def linesBefore (vs : List (Nat × WTree)) : List String :=
  (vs.takeWhile (fun v => v.2.isWindow)).map nodeLine

/-- The expected return value for a pre-order list: 0 when no attribute query fails. -/
def errOf (vs : List (Nat × WTree)) : Int :=
  if vs.all (fun v => v.2.isWindow) then 0 else ERROR_WDUMP_X11

/-- The expected `gszErr` for a pre-order list: the message for the first window whose
attribute query fails, and the old contents when there is none. -/
def gszErrOf (old : String) : List (Nat × WTree) → String
  | [] => old
  | (_, .window _ _ _ _ _) :: vs => gszErrOf old vs
  | (_, .broken w) :: _ => "XGetWindowAttributes(w:0x" ++ fmtlX w ++ ") failed!"

mutual
/-- A server answers as a tree says: for every window of the tree the attribute query,
the name query and the tree query hand back what the tree holds, the tree query succeeds
and enumerates exactly the children of the tree in their order. -/
def WTree.Serves (srv : Server) (aName aTypeStr : Atom) : WTree → Prop
  | .window w attrib prop wParent kids =>
      srv.XGetWindowAttributes w = some attrib
      ∧ srv.XGetWindowProperty w aName 0 4 false aTypeStr = prop
      ∧ (srv.XQueryTree w).iRet ≠ 0
      ∧ (srv.XQueryTree w).wParent = wParent
      ∧ (srv.XQueryTree w).pChildren.getD [] = kids.map WTree.handle
      ∧ WTree.ServesKids srv aName aTypeStr kids
  | .broken w => srv.XGetWindowAttributes w = none
/-- A server answers as every tree of a list says. -/
def WTree.ServesKids (srv : Server) (aName aTypeStr : Atom) : List WTree → Prop
  | [] => True
  | k :: ks => k.Serves srv aName aTypeStr ∧ WTree.ServesKids srv aName aTypeStr ks
end

/-- The tree of the windows within reach of the walk from `w` at depth `iLevel`, with
`levelsLeft = WDUMP_MAXLEVEL - iLevel`: the children of a window are those its tree query
enumerates, when that query succeeds and the depth is below `WDUMP_MAXLEVEL`. -/
def reachTree (srv : Server) (aName aTypeStr : Atom) : Nat → Window → Nat → WTree
  | levelsLeft, w, iLevel =>
    match srv.XGetWindowAttributes w with
    | none => .broken w
    | some attrib =>
        let tree := srv.XQueryTree w
        .window w attrib (srv.XGetWindowProperty w aName 0 4 false aTypeStr) tree.wParent
          (match levelsLeft with
            | 0 => []
            | r + 1 =>
                if iLevel < WDUMP_MAXLEVEL ∧ tree.iRet ≠ 0 then
                  (tree.pChildren.getD []).map
                    (fun c => reachTree srv aName aTypeStr r c (iLevel + 1))
                else [])

/-- The tree of the windows within reach of `DumpWindow` called on `w` at `iLevel`. -/
def walkTree (srv : Server) (aName aTypeStr : Atom) (w : Window) (iLevel : Nat) : WTree :=
  reachTree srv aName aTypeStr (WDUMP_MAXLEVEL - iLevel) w iLevel

/-- The line `DumpWindow` writes for `w` at `iLevel` when the attribute query of `w`
hands back `attrib`. -/
def ownLine (srv : Server) (aName aTypeStr : Atom) (iLevel : Nat) (w : Window)
    (attrib : XWindowAttributes) : String :=
  lineOf iLevel w attrib (srv.XGetWindowProperty w aName 0 4 false aTypeStr)
    (srv.XQueryTree w).wParent

/-- What the walk is expected to return and leave behind for a pre-order list. -/
def specOf (st : State) (vs : List (Nat × WTree)) : Int × State :=
  (errOf vs,
    { file := st.file ++ String.join (linesBefore vs), gszErr := gszErrOf st.gszErr vs })

/-- Text made of `n` spaces. -/
def spaces (n : Nat) : String :=
  ⟨List.replicate n ' '⟩

/-! ## Concrete servers and trees, for the examples -/

/-- The attributes of every window of the example servers. -/
def exampleAttrib : XWindowAttributes :=
  { x := 0, y := 0, width := 640, height := 480, root := 1, «class» := 1, map_state := 2,
    all_event_masks := 0, your_event_mask := 0, override_redirect := 0 }

/-- A server with the chain root 1, its only child 2, and the only child 3 of 2; no
window has a name property. -/
def chainServer : Server where
  XGetWindowAttributes := fun w => if w = 1 ∨ w = 2 ∨ w = 3 then some exampleAttrib else none
  XGetWindowProperty := fun _ _ _ _ _ _ => { iRet := 0, pProperty := none }
  XQueryTree := fun w =>
    if w = 1 then { iRet := 1, wRoot := 1, wParent := 0, pChildren := some [2] }
    else if w = 2 then { iRet := 1, wRoot := 1, wParent := 1, pChildren := some [3] }
    else { iRet := 1, wRoot := 1, wParent := 2, pChildren := none }

/-- The window tree of `chainServer`. -/
def chainTree : WTree :=
  .window 1 exampleAttrib { iRet := 0, pProperty := none } 0
    [.window 2 exampleAttrib { iRet := 0, pProperty := none } 1
      [.window 3 exampleAttrib { iRet := 0, pProperty := none } 2 []]]

/-- A server whose root 1 enumerates the children 2, 4, 3, where 2 has the child 5 and
the attribute query of 4 fails. -/
def gapServer : Server where
  XGetWindowAttributes := fun w => if w = 4 then none else some exampleAttrib
  XGetWindowProperty := fun _ _ _ _ _ _ => { iRet := 0, pProperty := none }
  XQueryTree := fun w =>
    if w = 1 then { iRet := 1, wRoot := 1, wParent := 0, pChildren := some [2, 4, 3] }
    else if w = 2 then { iRet := 1, wRoot := 1, wParent := 1, pChildren := some [5] }
    else { iRet := 1, wRoot := 1, wParent := 1, pChildren := none }

/-- A server on which the tree query fails for the window 2, the first child of the
root 1, and succeeds elsewhere; the out-parameters of the failing call hold 7 and the
children 8, 9. -/
def deafServer : Server where
  XGetWindowAttributes := fun _ => some exampleAttrib
  XGetWindowProperty := fun _ _ _ _ _ _ => { iRet := 0, pProperty := none }
  XQueryTree := fun w =>
    if w = 1 then { iRet := 1, wRoot := 1, wParent := 0, pChildren := some [2, 3] }
    else if w = 2 then { iRet := 0, wRoot := 7, wParent := 7, pChildren := some [8, 9] }
    else { iRet := 1, wRoot := 1, wParent := 1, pChildren := none }

/-- The name query succeeded and handed back a buffer that holds a non-empty text. -/
def NameGiven (prop : PropertyReply) : Prop :=
  prop.iRet = Success ∧ ∃ p, prop.pProperty = some p ∧ cText p ≠ ""

/-- The start of the line of `w` at depth `d`: the indent, `w:0x`, the handle, a space. -/
def lineStart (d : Nat) (w : Window) : String :=
  spaces (2 * d) ++ ("w:0x" ++ (fmtlX w ++ " "))

/-- A server like `chainServer` on which the window 2 has the name `xterm`. -/
def namedServer : Server where
  XGetWindowAttributes := fun w => if w = 1 ∨ w = 2 ∨ w = 3 then some exampleAttrib else none
  XGetWindowProperty := fun w _ _ _ _ _ =>
    if w = 2 then { iRet := 0, pProperty := some "xterm" } else { iRet := 0, pProperty := none }
  XQueryTree := fun w =>
    if w = 1 then { iRet := 1, wRoot := 1, wParent := 0, pChildren := some [2] }
    else if w = 2 then { iRet := 1, wRoot := 1, wParent := 1, pChildren := some [3] }
    else { iRet := 1, wRoot := 1, wParent := 2, pChildren := none }

/-- A name of 205 characters: 200 times `a`, then `bcdef`. -/
def longName : String :=
  ⟨List.replicate 200 'a' ++ ['b', 'c', 'd', 'e', 'f']⟩

/-- A server on which every window has the attributes of the examples, no children, and
the name `longName`. -/
def longNameServer : Server where
  XGetWindowAttributes := fun _ => some exampleAttrib
  XGetWindowProperty := fun _ _ _ _ _ _ => { iRet := 0, pProperty := some longName }
  XQueryTree := fun _ => { iRet := 1, wRoot := 1, wParent := 0, pChildren := none }

/-- Attributes with a window class and a map state outside the known values. -/
def oddAttrib : XWindowAttributes :=
  { x := -5, y := 12, width := 30, height := 40, root := 1, «class» := -3, map_state := 7,
    all_event_masks := 0, your_event_mask := 0, override_redirect := 1 }

/-- A server on which every window has the attributes `oddAttrib`, no name and no
children. -/
def oddServer : Server where
  XGetWindowAttributes := fun _ => some oddAttrib
  XGetWindowProperty := fun _ _ _ _ _ _ => { iRet := 0, pProperty := none }
  XQueryTree := fun _ => { iRet := 1, wRoot := 1, wParent := 0, pChildren := none }

/-! ## main -/

/-- The constant `None` of `X.h`: no atom. -/
def None : Atom := 0

/-- The fields of `struct tm` the program reads. -/
structure Tm where
  tm_year : Int
  tm_mon : Int
  tm_mday : Int
  tm_hour : Int
  tm_min : Int
deriving DecidableEq, Repr

/-- An open display connection: the server behind it, what `XDefaultRootWindow` hands
back, and `XInternAtom name only_if_exists`. -/
structure Display where
  server : Server
  XDefaultRootWindow : Window
  XInternAtom : String → Bool → Atom

/-- What `main` finds around it: the result of `localtime` (`none` is `NULL`), whether
`fopen(name, "w")` succeeds, and the result of `XOpenDisplay(NULL)` (`none` is `NULL`). -/
structure Env where
  localtime : Option Tm
  fopen : String → Bool
  XOpenDisplay : Option Display

/-- Text made of `n` zeros. -/
def zeros (n : Nat) : String :=
  ⟨List.replicate n '0'⟩

/-- The conversion `%02d` of an `int`: the sign, then zeros up to the width 2, then the
digits. -/
def fmt02d (v : Int) : String :=
  if v < 0 then "-" ++ zeros (1 - (Nat.repr v.natAbs).length) ++ Nat.repr v.natAbs
  else zeros (2 - (Nat.repr v.natAbs).length) ++ Nat.repr v.natAbs

/-- The file name `sz` after
`sprintf(sz, "x11wdump-%d.%02d.%02d-%dh%02d.txt", tm_year + 1900, tm_mon + 1, tm_mday,
tm_hour, tm_min)`. -/
def fileName (tm : Tm) : String :=
  "x11wdump-" ++ fmtD (tm.tm_year + 1900) ++ "." ++ fmt02d (tm.tm_mon + 1) ++ "."
    ++ fmt02d tm.tm_mday ++ "-" ++ fmtD tm.tm_hour ++ "h" ++ fmt02d tm.tm_min ++ ".txt"

/-- The variables of `main`, the global `gszErr`, and the text printed to the standard
output; `pFile` is `none` for `NULL` and otherwise the text written to the file. -/
structure MainState where
  iErr : Int
  gszErr : String
  sz : String
  pTm : Option Tm
  pFile : Option String
  pX11Display : Option Display
  wRoot : Window
  aName : Atom
  aTypeStr : Atom
  stdout : String

/-- The state of a stream after `fprintf(pFile, ...)` has written `text`. -/
def fprintf (pFile : Option String) (text : String) : Option String :=
  pFile.map (fun f => f ++ text)

/-- The statements `time(&iCurrTime); pTm = localtime(&iCurrTime); if (!pTm) ...`. -/
def mainClock (env : Env) (s : MainState) : MainState :=
  match env.localtime with
  | some tm => { s with pTm := some tm }
  | none =>
      { s with pTm := none, iErr := ERROR_WDUMP_SYS,
               gszErr := s.gszErr ++ "localtime() failed!" }

/-- The block that composes the file name and opens the file (`pTm` is not `NULL` when
`iErr` is 0). -/
def mainOpen (env : Env) (s : MainState) : MainState :=
  if s.iErr = 0 then
    match s.pTm with
    | some tm =>
        let sz := fileName tm
        if env.fopen sz then { s with sz := sz, pFile := some "" }
        else
          { s with sz := sz, pFile := none, iErr := ERROR_WDUMP_SYS,
                   gszErr := "fopen(" ++ sz ++ ") failed!" }
    | none => s
  else s

/-- The block that writes the header and opens the display. -/
def mainConnect (env : Env) (s : MainState) : MainState :=
  if s.iErr = 0 then
    let s1 : MainState :=
      { s with stdout := s.stdout ++ ("File: " ++ s.sz ++ "\n"),
               pFile := fprintf s.pFile ("File: " ++ s.sz ++ "\n\n") }
    match env.XOpenDisplay with
    | some d => { s1 with pX11Display := some d }
    | none =>
        { s1 with pX11Display := none, iErr := ERROR_WDUMP_X11,
                  gszErr := s1.gszErr ++ "XOpenDisplay() failed!" }
  else s

/-- The block that writes the root line and interns the two atoms (`pX11Display` is not
`NULL` when `iErr` is 0). -/
def mainAtoms (s : MainState) : MainState :=
  if s.iErr = 0 then
    match s.pX11Display with
    | some d =>
        let wRoot := d.XDefaultRootWindow
        let aName := d.XInternAtom "WM_NAME" false
        let aTypeStr := d.XInternAtom "STRING" false
        let s1 : MainState :=
          { s with wRoot := wRoot, aName := aName, aTypeStr := aTypeStr,
                   pFile := fprintf s.pFile ("Root: 0x" ++ fmtlX wRoot ++ "\n\n") }
        if aName = None ∨ aTypeStr = None then
          { s1 with iErr := ERROR_WDUMP_X11, gszErr := "XInternAtom() failed!" }
        else s1
    | none => s
  else s

/-- The statement `if (!iErr) iErr = DumpWindow(pFile, pX11Display, wRoot, aName,
aTypeStr, 0);`. -/
def mainDump (s : MainState) : MainState :=
  if s.iErr = 0 then
    match s.pX11Display, s.pFile with
    | some d, some f =>
        let r := DumpWindow d.server s.wRoot s.aName s.aTypeStr 0
          { file := f, gszErr := s.gszErr }
        { s with iErr := r.1, pFile := some r.2.file, gszErr := r.2.gszErr }
    | _, _ => s
  else s

/-- The `switch (iErr)` that reports the error. -/
def mainReport (s : MainState) : MainState :=
  if s.iErr = ERROR_WDUMP_SYS then
    { s with stdout := s.stdout ++ ("SYSTEM ERROR: " ++ s.gszErr ++ "\n") }
  else if s.iErr = ERROR_WDUMP_X11 then
    { s with stdout := s.stdout ++ ("X11 ERROR: " ++ s.gszErr ++ "\n") }
  else s

/-- The block `if (pFile) { fprintf(pFile, "\nDone.\n"); fclose(pFile);
printf("  Done.\n\n"); }`. -/
def mainClose (s : MainState) : MainState :=
  match s.pFile with
  | some f => { s with pFile := some (f ++ "\nDone.\n"), stdout := s.stdout ++ "  Done.\n\n" }
  | none => s

/-- What a run of the program leaves behind: the exit status, the text on the standard
output, and the contents of the output file when it was opened. -/
structure Outcome where
  status : Int
  stdout : String
  file : Option String
deriving DecidableEq, Repr

/-- The variables of `main` at its start (`*gszErr = 0`). -/
def mainStart : MainState :=
  { iErr := 0, gszErr := "", sz := "", pTm := none, pFile := none, pX11Display := none,
    wRoot := 0, aName := 0, aTypeStr := 0, stdout := "" }

/-- The variables of `main` just before `return 0`. -/
def mainRun (env : Env) : MainState :=
  mainClose (mainReport (mainDump (mainAtoms (mainConnect env (mainOpen env
    (mainClock env mainStart))))))

/-- The function `main`. -/
def main (env : Env) : Outcome :=
  let s := mainRun env
  { status := 0, stdout := s.stdout, file := s.pFile }

/-- A local time: 20 May 2019, 9:05. -/
def exampleTm : Tm :=
  { tm_year := 119, tm_mon := 4, tm_mday := 20, tm_hour := 9, tm_min := 5 }

/-- A display on a server, with the root 1 and the atoms 39 for `WM_NAME` and 31 for
`STRING`. -/
def displayOf (srv : Server) : Display :=
  { server := srv, XDefaultRootWindow := 1,
    XInternAtom := fun name _ => if name = "WM_NAME" then 39 else 31 }

/-- An environment in which the clock, the file and the display are fine, on a server. -/
def envOf (srv : Server) : Env :=
  { localtime := some exampleTm, fopen := fun _ => true,
    XOpenDisplay := some (displayOf srv) }

/-- The text `main` writes to the file before it calls `DumpWindow`: the header and the
root line. -/
def headerText (tm : Tm) (wRoot : Window) : String :=
  "File: " ++ fileName tm ++ "\n\n" ++ ("Root: 0x" ++ fmtlX wRoot ++ "\n\n")

/-- The call of `DumpWindow` that `main` makes on a display, after the header. -/
def mainCall (tm : Tm) (d : Display) : Int × State :=
  DumpWindow d.server d.XDefaultRootWindow (d.XInternAtom "WM_NAME" false)
    (d.XInternAtom "STRING" false) 0
    { file := headerText tm d.XDefaultRootWindow, gszErr := "" }

/-- What the `switch (iErr)` prints. -/
def reportText (iErr : Int) (gszErr : String) : String :=
  if iErr = ERROR_WDUMP_SYS then "SYSTEM ERROR: " ++ gszErr ++ "\n"
  else if iErr = ERROR_WDUMP_X11 then "X11 ERROR: " ++ gszErr ++ "\n"
  else ""

/-- A server on which every attribute query fails. -/
def blindServer : Server where
  XGetWindowAttributes := fun _ => none
  XGetWindowProperty := fun _ _ _ _ _ _ => { iRet := 0, pProperty := none }
  XQueryTree := fun _ => { iRet := 1, wRoot := 1, wParent := 0, pChildren := none }

/-- The file name with every field after the year padded to two digits, as the
specification words it. -/
def paddedFileName (tm : Tm) : String :=
  "x11wdump-" ++ fmtD (tm.tm_year + 1900) ++ "." ++ fmt02d (tm.tm_mon + 1) ++ "."
    ++ fmt02d tm.tm_mday ++ "-" ++ fmt02d tm.tm_hour ++ "h" ++ fmt02d tm.tm_min ++ ".txt"

/-- A local time: the month from 1 to 12 (`tm_mon` from 0 to 11), the day from 1 to 31,
the hour from 0 to 23, the minute from 0 to 59. -/
def Tm.InRange (tm : Tm) : Prop :=
  0 ≤ tm.tm_mon ∧ tm.tm_mon ≤ 11 ∧ 1 ≤ tm.tm_mday ∧ tm.tm_mday ≤ 31
    ∧ 0 ≤ tm.tm_hour ∧ tm.tm_hour ≤ 23 ∧ 0 ≤ tm.tm_min ∧ tm.tm_min ≤ 59

/-- The value of an uppercase hexadecimal digit. -/
def hexDigitValue (c : Char) : Nat :=
  if c = '0' then 0 else
  if c = '1' then 1 else
  if c = '2' then 2 else
  if c = '3' then 3 else
  if c = '4' then 4 else
  if c = '5' then 5 else
  if c = '6' then 6 else
  if c = '7' then 7 else
  if c = '8' then 8 else
  if c = '9' then 9 else
  if c = 'A' then 10 else
  if c = 'B' then 11 else
  if c = 'C' then 12 else
  if c = 'D' then 13 else
  if c = 'E' then 14 else 15

/-- The number a list of uppercase hexadecimal digits denotes, most significant first. -/
def hexValue (l : List Char) : Nat :=
  l.foldl (fun v c => 16 * v + hexDigitValue c) 0

/-- The uppercase hexadecimal digits. -/
def hexChars : List Char :=
  ['0', '1', '2', '3', '4', '5', '6', '7', '8', '9', 'A', 'B', 'C', 'D', 'E', 'F']

/-- Attributes with event masks: key press, button press, structure notify and property
change for all clients, exposure for this client. -/
def maskAttrib : XWindowAttributes :=
  { x := 0, y := 0, width := 640, height := 480, root := 1, «class» := 1, map_state := 2,
    all_event_masks := 0x420005, your_event_mask := 0x8000, override_redirect := 0 }

/-- A server on which every window has the attributes `maskAttrib`, no name and no
children. -/
def maskServer : Server where
  XGetWindowAttributes := fun _ => some maskAttrib
  XGetWindowProperty := fun _ _ _ _ _ _ => { iRet := 0, pProperty := none }
  XQueryTree := fun _ => { iRet := 1, wRoot := 1, wParent := 0, pChildren := none }

/-- The function `F` satisfies the recursion of the source of `DumpWindow` on a server:
error 2 and the message when the attribute query fails; otherwise the window's own line,
then, below `WDUMP_MAXLEVEL` and after a successful tree query, the loop over the
children with `F` at the next depth. -/
def Solves (srv : Server) (aName aTypeStr : Atom)
    (F : Window → Nat → State → Int × State) : Prop :=
  (∀ w iLevel st, srv.XGetWindowAttributes w = none →
      F w iLevel st
        = (ERROR_WDUMP_X11,
            { st with gszErr := "XGetWindowAttributes(w:0x" ++ fmtlX w ++ ") failed!" }))
  ∧ (∀ w iLevel st attrib, srv.XGetWindowAttributes w = some attrib →
      F w iLevel st
        = if iLevel < WDUMP_MAXLEVEL ∧ (srv.XQueryTree w).iRet ≠ 0 then
            childLoop (fun ch s => F ch (iLevel + 1) s)
              ((srv.XQueryTree w).pChildren.getD []) 0
              (st.write (ownLine srv aName aTypeStr iLevel w attrib))
          else (0, st.write (ownLine srv aName aTypeStr iLevel w attrib)))

/-- A cyclic server: the window 1 is its own and only child. -/
def loopServer : Server where
  XGetWindowAttributes := fun _ => some exampleAttrib
  XGetWindowProperty := fun _ _ _ _ _ _ => { iRet := 0, pProperty := none }
  XQueryTree := fun _ => { iRet := 1, wRoot := 1, wParent := 1, pChildren := some [1] }

/-- The name query succeeded and handed back a non-empty sequence of data bytes, as the
specification words it. -/
def DataGiven (prop : PropertyReply) : Prop :=
  prop.iRet = Success ∧ ∃ p, prop.pProperty = some p ∧ p ≠ ""

/-- A server on which the name data of every window are a NUL byte followed by `abc`;
the attributes are those of the examples and no window has children. -/
def nulFirstServer : Server where
  XGetWindowAttributes := fun _ => some exampleAttrib
  XGetWindowProperty := fun _ _ _ _ _ _ => { iRet := 0, pProperty := some "\x00abc" }
  XQueryTree := fun _ => { iRet := 1, wRoot := 1, wParent := 0, pChildren := none }

/-- A server on which the name data of every window are `ab`, a NUL byte, `cd`; the
attributes are those of the examples and no window has children. -/
def nulInsideServer : Server where
  XGetWindowAttributes := fun _ => some exampleAttrib
  XGetWindowProperty := fun _ _ _ _ _ _ => { iRet := 0, pProperty := some "ab\x00cd" }
  XQueryTree := fun _ => { iRet := 1, wRoot := 1, wParent := 0, pChildren := none }

/-- Attributes whose mask for all clients has the 25 known bits set. -/
def fullMaskAttrib : XWindowAttributes :=
  { x := 0, y := 0, width := 640, height := 480, root := 1, «class» := 1, map_state := 2,
    all_event_masks := 0x1FFFFFF, your_event_mask := 0, override_redirect := 0 }

/-! # Theorems -/

/-! ## Event2sz -/

theorem Event2sz_eq_catAll (m : Int) : Event2sz m = catAll m canonicalNames "" := by
  rfl

theorem nat_and_two_pow_ne_zero (n b : Nat) : n &&& 2 ^ b ≠ 0 ↔ n.testBit b = true := by
  constructor
  · intro h
    by_contra hb
    apply h
    apply Nat.eq_of_testBit_eq
    intro i
    rw [Nat.testBit_and, Nat.testBit_two_pow, Nat.zero_testBit]
    by_cases hi : b = i
    · subst hi; simp [hb]
    · simp [hi]
  · intro hb h
    have := congrArg (fun x => Nat.testBit x b) h
    simp [Nat.testBit_and, Nat.testBit_two_pow, hb] at this

theorem nat_ldiff_two_pow_ne_zero (n b : Nat) :
    Nat.ldiff (2 ^ b) n ≠ 0 ↔ n.testBit b = false := by
  constructor
  · intro h
    by_contra hb
    apply h
    apply Nat.eq_of_testBit_eq
    intro i
    rw [Nat.testBit_ldiff, Nat.testBit_two_pow, Nat.zero_testBit]
    by_cases hi : b = i
    · subst hi; simp at hb; simp [hb]
    · simp [hi]
  · intro hb h
    have := congrArg (fun x => Nat.testBit x b) h
    simp [Nat.testBit_ldiff, Nat.testBit_two_pow, hb] at this

theorem land_two_pow_ne_zero (m : Int) (b : Nat) :
    Int.land m (2 ^ b) ≠ 0 ↔ m.testBit b = true := by
  have h2 : (2 : Int) ^ b = Int.ofNat (2 ^ b) := by simp
  rw [h2]
  cases m with
  | ofNat n =>
      show ((n &&& 2 ^ b : Nat) : Int) ≠ 0 ↔ n.testBit b = true
      rw [← nat_and_two_pow_ne_zero]
      simp
  | negSucc n =>
      show ((Nat.ldiff (2 ^ b) n : Nat) : Int) ≠ 0 ↔ (!n.testBit b) = true
      have := nat_ldiff_two_pow_ne_zero n b
      simp at this ⊢
      exact this

theorem str_ne_empty_iff (s : String) : s ≠ "" ↔ 0 < s.length := by
  constructor
  · intro h
    by_contra h0
    apply h
    apply String.ext
    have h1 : s.data.length = 0 := Nat.eq_zero_of_not_pos h0
    rw [List.length_eq_zero.mp h1]
  · intro h hs
    subst hs
    exact absurd h (by decide)

theorem catEvent_set (m : Int) (b : Nat) (n p : String) (h : m.testBit b = true) :
    catEvent m (2 ^ b) n p = (if p ≠ "" then p ++ "|" else p) ++ n := by
  unfold catEvent
  rw [if_pos ((land_two_pow_ne_zero m b).mpr h)]

theorem catEvent_unset (m : Int) (b : Nat) (n p : String) (h : m.testBit b = false) :
    catEvent m (2 ^ b) n p = p := by
  unfold catEvent
  rw [if_neg]
  intro hc
  rw [land_two_pow_ne_zero] at hc
  simp [h] at hc

theorem catAll_of_ne (m : Int) (tbl : List (Nat × String)) :
    ∀ acc : String, acc ≠ "" →
      catAll m tbl acc = String.intercalate.go acc "|" (namesOf m tbl) := by
  induction tbl with
  | nil => intro acc _; simp [catAll, namesOf, String.intercalate.go]
  | cons e t ih =>
      intro acc hacc
      cases hb : m.testBit e.1 with
      | true =>
          have hne : acc ++ "|" ++ e.2 ≠ "" := by
            rw [str_ne_empty_iff]
            have := (str_ne_empty_iff acc).mp hacc
            simp only [String.length_append]
            omega
          have hn : namesOf m (e :: t) = e.2 :: namesOf m t := by
            simp [namesOf, List.filter, hb]
          rw [catAll, catEvent_set m e.1 e.2 acc hb, if_pos hacc, ih _ hne, hn,
            String.intercalate.go]
      | false =>
          have hn : namesOf m (e :: t) = namesOf m t := by
            simp [namesOf, List.filter, hb]
          rw [catAll, catEvent_unset m e.1 e.2 acc hb, ih _ hacc, hn]

theorem catAll_empty (m : Int) (tbl : List (Nat × String))
    (hne : ∀ e ∈ tbl, e.2 ≠ "") :
    catAll m tbl "" = String.intercalate "|" (namesOf m tbl) := by
  induction tbl with
  | nil => simp [catAll, namesOf, String.intercalate]
  | cons e t ih =>
      cases hb : m.testBit e.1 with
      | true =>
          have hn : namesOf m (e :: t) = e.2 :: namesOf m t := by
            simp [namesOf, List.filter, hb]
          have he : e.2 ≠ "" := hne e (List.mem_cons_self _ _)
          rw [catAll, catEvent_set m e.1 e.2 "" hb, hn, String.intercalate]
          simp only [ne_eq, not_true_eq_false, if_false, String.empty_append]
          exact catAll_of_ne m t e.2 he
      | false =>
          have hn : namesOf m (e :: t) = namesOf m t := by
            simp [namesOf, List.filter, hb]
          rw [catAll, catEvent_unset m e.1 e.2 "" hb, hn]
          exact ih (fun e he => hne e (List.mem_cons_of_mem _ he))

theorem canonicalNames_ne : ∀ e ∈ canonicalNames, e.2 ≠ "" := by
  decide

theorem Event2sz_eq_join (m : Int) : Event2sz m = String.intercalate "|" (setNames m) := by
  rw [Event2sz_eq_catAll]
  exact catAll_empty m canonicalNames canonicalNames_ne

theorem go_length_ge (s : String) (l : List String) :
    ∀ acc : String, acc.length ≤ (String.intercalate.go acc s l).length := by
  induction l with
  | nil => intro acc; simp [String.intercalate.go]
  | cons a t ih =>
      intro acc
      rw [String.intercalate.go]
      refine le_trans ?_ (ih _)
      simp [String.length_append]
      omega

theorem join_eq_empty_iff (l : List String) (hne : ∀ a ∈ l, a ≠ "") :
    String.intercalate "|" l = "" ↔ l = [] := by
  constructor
  · intro h
    cases l with
    | nil => rfl
    | cons a t =>
        exfalso
        have ha := (str_ne_empty_iff a).mp (hne a (List.mem_cons_self _ _))
        have := go_length_ge "|" t a
        rw [String.intercalate] at h
        rw [h] at this
        simp at this
        omega
  · intro h; subst h; rfl

theorem setNames_ne (m : Int) : ∀ a ∈ setNames m, a ≠ "" := by
  intro a ha
  simp only [setNames, List.mem_map, List.mem_filter] at ha
  obtain ⟨e, ⟨he, _⟩, rfl⟩ := ha
  exact canonicalNames_ne e he

theorem canonicalNames_bits : ∀ i : Fin 25, ∃ e ∈ canonicalNames, e.1 = i.val := by
  decide

theorem canonicalNames_bits_lt : ∀ e ∈ canonicalNames, e.1 < 25 := by
  decide

theorem setNames_eq_nil_iff (m : Int) :
    setNames m = [] ↔ ∀ i : Nat, i < 25 → m.testBit i = false := by
  simp only [setNames, List.map_eq_nil_iff, List.filter_eq_nil_iff]
  constructor
  · intro h i hi
    obtain ⟨e, he, hei⟩ := canonicalNames_bits ⟨i, hi⟩
    have := h e he
    simp at hei
    rw [hei] at this
    simpa using this
  · intro h e he
    simp [h e.1 (canonicalNames_bits_lt e he)]


theorem testBit_low_mask (i : Nat) (hi : i < 25) :
    ((2 : Int) ^ 25 - 1).testBit i = true := by
  have h : ((2 : Int) ^ 25 - 1) = Int.ofNat (2 ^ 25 - 1) := by norm_num
  rw [h]
  show (2 ^ 25 - 1 : Nat).testBit i = true
  rw [Nat.testBit_two_pow_sub_one]
  simpa using hi

theorem setNames_land_low (m : Int) : setNames (Int.land m (2 ^ 25 - 1)) = setNames m := by
  unfold setNames
  congr 1
  apply List.filter_congr
  intro e he
  rw [Int.testBit_land, testBit_low_mask e.1 (canonicalNames_bits_lt e he), Bool.and_true]

theorem canonicalNames_inj :
    ∀ e ∈ canonicalNames, ∀ f ∈ canonicalNames, e.2 = f.2 → e = f := by
  decide

theorem canonicalNames_nodup : (canonicalNames.map Prod.snd).Nodup := by
  decide

theorem setNames_sublist (m : Int) :
    List.Sublist (setNames m) (canonicalNames.map Prod.snd) :=
  List.Sublist.map _ (List.filter_sublist _)

theorem mem_setNames_iff (m : Int) :
    ∀ e ∈ canonicalNames, (e.2 ∈ setNames m ↔ m.testBit e.1 = true) := by
  intro e he
  simp only [setNames, List.mem_map, List.mem_filter]
  constructor
  · rintro ⟨f, ⟨hf, hb⟩, hfe⟩
    rw [canonicalNames_inj f hf e he hfe] at hb
    exact hb
  · intro hb
    exact ⟨e, ⟨he, hb⟩, rfl⟩

/-- C1: for every event mask, `Event2sz` yields the names of the set known bits, each
once, in the canonical order from bit 0 (KeyPrs) to bit 24 (OwnGrbBut), joined by `|`
with no leading or trailing separator; the result is empty exactly when none of the 25
known bits is set, bits above 24 contribute nothing, and mask 0 yields the empty
string. -/
theorem Event2sz_canonical (m : Int) :
    Event2sz m = String.intercalate "|" (setNames m)
      ∧ (∀ e ∈ canonicalNames, (e.2 ∈ setNames m ↔ m.testBit e.1 = true))
      ∧ List.Sublist (setNames m) (canonicalNames.map Prod.snd)
      ∧ (setNames m).Nodup
      ∧ (Event2sz m = "" ↔ ∀ i : Nat, i < 25 → m.testBit i = false)
      ∧ Event2sz (Int.land m (2 ^ 25 - 1)) = Event2sz m
      ∧ Event2sz 0 = "" := by
  refine ⟨Event2sz_eq_join m, mem_setNames_iff m, setNames_sublist m,
    List.Nodup.sublist (setNames_sublist m) canonicalNames_nodup, ?_, ?_, by decide⟩
  · rw [Event2sz_eq_join, join_eq_empty_iff _ (setNames_ne m), setNames_eq_nil_iff]
  · rw [Event2sz_eq_join, Event2sz_eq_join, setNames_land_low]

/-! ## Text and list lemmas -/

theorem join_go (l : List String) : ∀ acc : String,
    List.foldl (fun r s => r ++ s) acc l = acc ++ List.foldl (fun r s => r ++ s) "" l := by
  induction l with
  | nil => intro acc; simp
  | cons a t ih =>
      intro acc
      simp only [List.foldl_cons]
      rw [ih (acc ++ a), ih ("" ++ a), String.empty_append, String.append_assoc]

theorem join_nil : String.join [] = "" := rfl

theorem join_cons (a : String) (l : List String) :
    String.join (a :: l) = a ++ String.join l := by
  unfold String.join
  rw [List.foldl_cons, join_go, String.empty_append]

theorem join_append (l1 l2 : List String) :
    String.join (l1 ++ l2) = String.join l1 ++ String.join l2 := by
  induction l1 with
  | nil => simp [join_nil]
  | cons a t ih => rw [List.cons_append, join_cons, join_cons, ih, String.append_assoc]

/-! ## The walk -/

theorem errOf_nil : errOf [] = 0 := rfl

theorem errOf_cons_window (d : Nat) (w : Window) (attrib : XWindowAttributes)
    (prop : PropertyReply) (wParent : Window) (kids : List WTree)
    (vs : List (Nat × WTree)) :
    errOf ((d, .window w attrib prop wParent kids) :: vs) = errOf vs := by
  unfold errOf
  rw [List.all_cons]
  simp only [WTree.isWindow, Bool.true_and]

theorem errOf_cons_broken (d : Nat) (w : Window) (vs : List (Nat × WTree)) :
    errOf ((d, .broken w) :: vs) = ERROR_WDUMP_X11 := by
  unfold errOf
  rw [List.all_cons]
  simp only [WTree.isWindow, Bool.false_and]
  rfl

theorem errOf_append (v1 v2 : List (Nat × WTree)) :
    errOf (v1 ++ v2) = if errOf v1 = 0 then errOf v2 else errOf v1 := by
  induction v1 with
  | nil => simp [errOf_nil]
  | cons v t ih =>
      obtain ⟨d, n⟩ := v
      cases n with
      | window w attrib prop wParent kids =>
          rw [List.cons_append, errOf_cons_window, errOf_cons_window, ih]
      | broken w =>
          rw [List.cons_append, errOf_cons_broken, errOf_cons_broken]
          simp [ERROR_WDUMP_X11]

theorem linesBefore_append (v1 v2 : List (Nat × WTree)) :
    linesBefore (v1 ++ v2)
      = if errOf v1 = 0 then linesBefore v1 ++ linesBefore v2 else linesBefore v1 := by
  induction v1 with
  | nil => simp [errOf_nil, linesBefore]
  | cons v t ih =>
      obtain ⟨d, n⟩ := v
      cases n with
      | window w attrib prop wParent kids =>
          rw [errOf_cons_window]
          have h1 : ∀ l, linesBefore ((d, .window w attrib prop wParent kids) :: l)
              = nodeLine (d, .window w attrib prop wParent kids) :: linesBefore l := by
            intro l; simp [linesBefore, List.takeWhile, WTree.isWindow]
          rw [List.cons_append, h1, h1, ih]
          split <;> simp
      | broken w =>
          rw [errOf_cons_broken]
          simp [ERROR_WDUMP_X11, linesBefore, List.takeWhile, WTree.isWindow]

theorem gszErrOf_append (old : String) (v1 v2 : List (Nat × WTree)) :
    gszErrOf old (v1 ++ v2)
      = if errOf v1 = 0 then gszErrOf old v2 else gszErrOf old v1 := by
  induction v1 with
  | nil => simp [errOf_nil]
  | cons v t ih =>
      obtain ⟨d, n⟩ := v
      cases n with
      | window w attrib prop wParent kids =>
          rw [List.cons_append, errOf_cons_window, gszErrOf, gszErrOf, ih]
      | broken w =>
          rw [List.cons_append, errOf_cons_broken, gszErrOf, gszErrOf]
          simp [ERROR_WDUMP_X11]

theorem gszErrOf_of_ok (old : String) (vs : List (Nat × WTree)) (h : errOf vs = 0) :
    gszErrOf old vs = old := by
  induction vs with
  | nil => rfl
  | cons v t ih =>
      obtain ⟨d, n⟩ := v
      cases n with
      | window w attrib prop wParent kids =>
          rw [errOf_cons_window] at h
          rw [gszErrOf, ih h]
      | broken w =>
          rw [errOf_cons_broken] at h
          simp [ERROR_WDUMP_X11] at h

theorem specOf_nil (st : State) : specOf st [] = (0, st) := by
  simp [specOf, errOf_nil, linesBefore, join_nil, gszErrOf]

theorem specOf_append (st : State) (v1 v2 : List (Nat × WTree)) :
    specOf st (v1 ++ v2)
      = if (specOf st v1).1 = 0 then specOf (specOf st v1).2 v2 else specOf st v1 := by
  unfold specOf
  simp only
  rw [errOf_append, linesBefore_append, gszErrOf_append]
  by_cases h : errOf v1 = 0
  · simp only [h, if_true]
    rw [join_append, String.append_assoc, gszErrOf_of_ok _ v1 h]
  · simp only [h, if_false]

theorem childLoop_spec (visit : Window → State → Int × State) (f : Window → WTree)
    (d : Nat) (hv : ∀ c s, visit c s = specOf s ((f c).preorder d)) (cs : List Window) :
    ∀ (e : Int) (s : State),
      childLoop visit cs e s
        = if e = 0 then specOf s (WTree.preorderKids (cs.map f) d) else (e, s) := by
  induction cs with
  | nil =>
      intro e s
      simp only [childLoop, List.map_nil, WTree.preorderKids, specOf_nil]
      split
      · next h => rw [h]
      · rfl
  | cons c rest ih =>
      intro e s
      by_cases he : e = 0
      · subst he
        simp only [childLoop, if_true, List.map_cons, WTree.preorderKids]
        rw [ih, hv, specOf_append]
      · simp only [childLoop, he, if_false]

theorem dumpLevels_broken (srv : Server) (a t : Atom) (r : Nat) (w : Window) (L : Nat)
    (st : State) (h : srv.XGetWindowAttributes w = none) :
    dumpLevels srv a t r w L st
      = (ERROR_WDUMP_X11,
          { st with gszErr := "XGetWindowAttributes(w:0x" ++ fmtlX w ++ ") failed!" }) := by
  cases r <;> simp [dumpLevels, h]

theorem dumpLevels_zero (srv : Server) (a t : Atom) (w : Window) (L : Nat) (st : State)
    (attrib : XWindowAttributes) (h : srv.XGetWindowAttributes w = some attrib) :
    dumpLevels srv a t 0 w L st
      = (0, st.write (ownLine srv a t L w attrib)) := by
  simp [dumpLevels, h, ownLine]

theorem dumpLevels_succ (srv : Server) (a t : Atom) (r : Nat) (w : Window) (L : Nat)
    (st : State) (attrib : XWindowAttributes)
    (h : srv.XGetWindowAttributes w = some attrib) :
    dumpLevels srv a t (r + 1) w L st
      = if L < WDUMP_MAXLEVEL ∧ (srv.XQueryTree w).iRet ≠ 0 then
          childLoop (fun ch s => dumpLevels srv a t r ch (L + 1) s)
            ((srv.XQueryTree w).pChildren.getD []) 0
            (st.write (ownLine srv a t L w attrib))
        else
          (0, st.write (ownLine srv a t L w attrib)) := by
  unfold ownLine
  rw [dumpLevels]
  simp only [h]
  split
  · next hg =>
      cases hc : (srv.XQueryTree w).pChildren with
      | none => simp [childLoop]
      | some cs =>
          cases cs with
          | nil => simp [childLoop]
          | cons c cs => simp
  · rfl

theorem reachTree_broken (srv : Server) (a t : Atom) (r : Nat) (w : Window) (L : Nat)
    (h : srv.XGetWindowAttributes w = none) :
    reachTree srv a t r w L = .broken w := by
  cases r <;> simp [reachTree, h]

theorem reachTree_zero (srv : Server) (a t : Atom) (w : Window) (L : Nat)
    (attrib : XWindowAttributes) (h : srv.XGetWindowAttributes w = some attrib) :
    reachTree srv a t 0 w L
      = .window w attrib (srv.XGetWindowProperty w a 0 4 false t)
          (srv.XQueryTree w).wParent [] := by
  simp [reachTree, h]

theorem reachTree_succ (srv : Server) (a t : Atom) (r : Nat) (w : Window) (L : Nat)
    (attrib : XWindowAttributes) (h : srv.XGetWindowAttributes w = some attrib) :
    reachTree srv a t (r + 1) w L
      = .window w attrib (srv.XGetWindowProperty w a 0 4 false t)
          (srv.XQueryTree w).wParent
          (if L < WDUMP_MAXLEVEL ∧ (srv.XQueryTree w).iRet ≠ 0 then
            ((srv.XQueryTree w).pChildren.getD []).map
              (fun c => reachTree srv a t r c (L + 1))
          else []) := by
  rw [reachTree]
  simp only [h]

theorem specOf_cons_window (st : State) (d : Nat) (w : Window)
    (attrib : XWindowAttributes) (prop : PropertyReply) (wParent : Window)
    (kids : List WTree) (vs : List (Nat × WTree)) :
    specOf st ((d, .window w attrib prop wParent kids) :: vs)
      = specOf (st.write (lineOf d w attrib prop wParent)) vs := by
  unfold specOf
  rw [errOf_cons_window]
  have h1 : linesBefore ((d, .window w attrib prop wParent kids) :: vs)
      = lineOf d w attrib prop wParent :: linesBefore vs := by
    simp [linesBefore, List.takeWhile, WTree.isWindow, nodeLine]
  rw [h1, join_cons, ← String.append_assoc]
  rfl

theorem specOf_broken (st : State) (d : Nat) (w : Window) :
    specOf st [(d, .broken w)]
      = (ERROR_WDUMP_X11,
          { st with gszErr := "XGetWindowAttributes(w:0x" ++ fmtlX w ++ ") failed!" }) := by
  unfold specOf
  rw [errOf_cons_broken]
  simp [linesBefore, List.takeWhile, WTree.isWindow, join_nil, gszErrOf]

theorem dumpLevels_spec (srv : Server) (a t : Atom) :
    ∀ (r : Nat) (w : Window) (L : Nat) (st : State),
      dumpLevels srv a t r w L st = specOf st ((reachTree srv a t r w L).preorder L) := by
  intro r
  induction r with
  | zero =>
      intro w L st
      cases h : srv.XGetWindowAttributes w with
      | none =>
          rw [dumpLevels_broken _ _ _ _ _ _ _ h, reachTree_broken _ _ _ _ _ _ h,
            WTree.preorder, specOf_broken]
      | some attrib =>
          rw [dumpLevels_zero _ _ _ _ _ _ _ h, reachTree_zero _ _ _ _ _ _ h,
            WTree.preorder, WTree.preorderKids, specOf_cons_window, specOf_nil]
          rfl
  | succ r ih =>
      intro w L st
      cases h : srv.XGetWindowAttributes w with
      | none =>
          rw [dumpLevels_broken _ _ _ _ _ _ _ h, reachTree_broken _ _ _ _ _ _ h,
            WTree.preorder, specOf_broken]
      | some attrib =>
          rw [dumpLevels_succ _ _ _ _ _ _ _ _ h, reachTree_succ _ _ _ _ _ _ _ h,
            WTree.preorder, specOf_cons_window]
          split
          · rw [childLoop_spec _ (fun c => reachTree srv a t r c (L + 1)) (L + 1)
              (fun c s => ih c (L + 1) s)]
            simp only [if_true]
            rfl
          · rw [WTree.preorderKids, specOf_nil]
            rfl

theorem DumpWindow_spec (srv : Server) (a t : Atom) (w : Window) (L : Nat) (st : State) :
    DumpWindow srv w a t L st = specOf st ((walkTree srv a t w L).preorder L) :=
  dumpLevels_spec srv a t _ w L st

/-! ## Trees a server answers for -/

theorem heightKids_eq_zero (kids : List WTree) (h : WTree.heightKids kids = 0) :
    kids = [] := by
  cases kids with
  | nil => rfl
  | cons k ks =>
      rw [WTree.heightKids] at h
      have : k.height + 1 ≤ 0 := h ▸ le_max_left _ _
      omega

theorem height_lt_heightKids (kids : List WTree) :
    ∀ k ∈ kids, k.height + 1 ≤ WTree.heightKids kids := by
  induction kids with
  | nil => intro k hk; cases hk
  | cons a ks ih =>
      intro k hk
      rw [WTree.heightKids]
      rcases List.mem_cons.mp hk with rfl | hk
      · exact le_max_left _ _
      · exact le_trans (ih k hk) (le_max_right _ _)

theorem servesKids_mem (srv : Server) (a t : Atom) (kids : List WTree)
    (h : WTree.ServesKids srv a t kids) : ∀ k ∈ kids, k.Serves srv a t := by
  induction kids with
  | nil => intro k hk; cases hk
  | cons x ks ih =>
      rw [WTree.ServesKids] at h
      intro k hk
      rcases List.mem_cons.mp hk with rfl | hk
      · exact h.1
      · exact ih h.2 k hk

theorem map_handle_eq (f : Window → WTree) (kids : List WTree)
    (h : ∀ k ∈ kids, f k.handle = k) : (kids.map WTree.handle).map f = kids := by
  induction kids with
  | nil => rfl
  | cons x ks ih =>
      rw [List.map_cons, List.map_cons, h x (List.mem_cons_self _ _),
        ih (fun k hk => h k (List.mem_cons_of_mem _ hk))]

theorem reachTree_of_serves (srv : Server) (a t : Atom) :
    ∀ (r L : Nat) (tr : WTree), tr.height ≤ r → L + tr.height ≤ WDUMP_MAXLEVEL →
      tr.Serves srv a t → reachTree srv a t r tr.handle L = tr := by
  intro r
  induction r with
  | zero =>
      intro L tr hr _ hs
      cases tr with
      | broken w =>
          rw [WTree.Serves] at hs
          exact reachTree_broken srv a t 0 w L hs
      | window w attrib prop wParent kids =>
          rw [WTree.Serves] at hs
          obtain ⟨h1, h2, _, h4, _, _⟩ := hs
          rw [WTree.height] at hr
          have hk := heightKids_eq_zero kids (Nat.le_zero.mp hr)
          subst hk
          rw [WTree.handle, reachTree_zero srv a t w L attrib h1, h2, h4]
  | succ r ih =>
      intro L tr hr hL hs
      cases tr with
      | broken w =>
          rw [WTree.Serves] at hs
          exact reachTree_broken srv a t (r + 1) w L hs
      | window w attrib prop wParent kids =>
          rw [WTree.Serves] at hs
          obtain ⟨h1, h2, h3, h4, h5, h6⟩ := hs
          rw [WTree.height] at hr hL
          rw [WTree.handle, reachTree_succ srv a t r w L attrib h1, h2, h4, h5]
          congr 1
          split
          · next hg =>
              apply map_handle_eq
              intro k hk
              have hkh := height_lt_heightKids kids k hk
              exact ih (L + 1) k (by omega) (by omega) (servesKids_mem srv a t kids h6 k hk)
          · next hg =>
              have hL10 : ¬ L < WDUMP_MAXLEVEL := fun hlt => hg ⟨hlt, h3⟩
              have : WTree.heightKids kids = 0 := by omega
              exact (heightKids_eq_zero kids this).symm

theorem walkTree_of_serves (srv : Server) (a t : Atom) (tr : WTree)
    (hh : tr.height ≤ WDUMP_MAXLEVEL) (hs : tr.Serves srv a t) :
    walkTree srv a t tr.handle 0 = tr :=
  reachTree_of_serves srv a t _ 0 tr (by simpa using hh) (by simpa using hh) hs

/-! ## Pre-order lists of trees -/

mutual
theorem preorder_all (tr : WTree) (d : Nat) (h : tr.allWindows = true) :
    ∀ v ∈ tr.preorder d, v.2.isWindow = true := by
  cases tr with
  | broken w => simp [WTree.allWindows] at h
  | window w attrib prop wParent kids =>
      rw [WTree.allWindows] at h
      intro v hv
      rw [WTree.preorder] at hv
      rcases List.mem_cons.mp hv with rfl | hv
      · rfl
      · exact preorderKids_all kids (d + 1) h v hv
theorem preorderKids_all (kids : List WTree) (d : Nat)
    (h : WTree.allWindowsKids kids = true) :
    ∀ v ∈ WTree.preorderKids kids d, v.2.isWindow = true := by
  cases kids with
  | nil => intro v hv; simp [WTree.preorderKids] at hv
  | cons k ks =>
      rw [WTree.allWindowsKids, Bool.and_eq_true] at h
      intro v hv
      rw [WTree.preorderKids] at hv
      rcases List.mem_append.mp hv with hv | hv
      · exact preorder_all k d h.1 v hv
      · exact preorderKids_all ks d h.2 v hv
end

mutual
theorem preorder_length (tr : WTree) (d : Nat) : (tr.preorder d).length = tr.size := by
  cases tr with
  | broken w => rfl
  | window w attrib prop wParent kids =>
      rw [WTree.preorder, WTree.size, List.length_cons, preorderKids_length kids (d + 1)]
      omega
theorem preorderKids_length (kids : List WTree) (d : Nat) :
    (WTree.preorderKids kids d).length = WTree.sizeKids kids := by
  cases kids with
  | nil => rfl
  | cons k ks =>
      rw [WTree.preorderKids, WTree.sizeKids, List.length_append, preorder_length k d,
        preorderKids_length ks d]
end

theorem errOf_of_all (vs : List (Nat × WTree)) (h : ∀ v ∈ vs, v.2.isWindow = true) :
    errOf vs = 0 := by
  unfold errOf
  rw [if_pos]
  rw [List.all_eq_true]
  exact h

theorem linesBefore_of_all (vs : List (Nat × WTree)) (h : ∀ v ∈ vs, v.2.isWindow = true) :
    linesBefore vs = vs.map nodeLine := by
  unfold linesBefore
  congr 1
  rw [List.takeWhile_eq_self_iff]
  exact h

theorem specOf_of_all (st : State) (vs : List (Nat × WTree))
    (h : ∀ v ∈ vs, v.2.isWindow = true) :
    specOf st vs = (0, st.write (String.join (vs.map nodeLine))) := by
  unfold specOf
  rw [errOf_of_all vs h, linesBefore_of_all vs h, gszErrOf_of_ok _ vs (errOf_of_all vs h)]
  rfl

/-! ## The text of a line -/

theorem digitChar_isDigit : ∀ k : Fin 10, (Nat.digitChar k.val).isDigit = true := by
  decide

theorem toDigitsCore_chars (fuel : Nat) :
    ∀ (n : Nat) (acc : List Char), ∀ c ∈ Nat.toDigitsCore 10 fuel n acc,
      c ∈ acc ∨ c.isDigit = true := by
  induction fuel with
  | zero => intro n acc c hc; left; simpa [Nat.toDigitsCore] using hc
  | succ f ih =>
      intro n acc c hc
      have hd : (Nat.digitChar (n % 10)).isDigit = true :=
        digitChar_isDigit ⟨n % 10, Nat.mod_lt _ (by decide)⟩
      rw [Nat.toDigitsCore] at hc
      split at hc
      · rcases List.mem_cons.mp hc with rfl | hc
        · right; exact hd
        · left; exact hc
      · rcases ih _ _ c hc with h | h
        · rcases List.mem_cons.mp h with rfl | h
          · right; exact hd
          · left; exact h
        · right; exact h

theorem repr_chars (n : Nat) : ∀ c ∈ (Nat.repr n).data, c.isDigit = true := by
  intro c hc
  have : c ∈ Nat.toDigitsCore 10 (n + 1) n [] := hc
  rcases toDigitsCore_chars _ _ _ c this with h | h
  · cases h
  · exact h

theorem fmtD_chars (v : Int) : ∀ c ∈ (fmtD v).data, c = '-' ∨ c.isDigit = true := by
  intro c hc
  unfold fmtD at hc
  split at hc
  · rw [String.data_append] at hc
    rcases List.mem_append.mp hc with h | h
    · left; simpa using h
    · right; exact repr_chars _ c h
  · right; exact repr_chars _ c hc

theorem fillSpace_eq (n : Nat) : ∀ acc : List Char,
    fillSpace n acc = List.replicate n ' ' ++ acc := by
  induction n with
  | zero => intro acc; rfl
  | succ i ih =>
      intro acc
      rw [fillSpace, ih, List.replicate_succ']
      simp

theorem szSpaceOf_eq (iLevel : Nat) : szSpaceOf iLevel = spaces (2 * iLevel) := by
  unfold szSpaceOf spaces
  rw [fillSpace_eq, List.append_nil, Nat.mul_comm]

theorem spaces_zero : spaces 0 = "" := rfl

theorem spaces_length (n : Nat) : (spaces n).length = n := by
  simp [spaces, String.length]

theorem spaces_chars (n : Nat) : ∀ c ∈ (spaces n).data, c = ' ' := by
  intro c hc
  exact List.eq_of_mem_replicate hc

theorem lineOf_eq (d : Nat) (w : Window) (attrib : XWindowAttributes)
    (prop : PropertyReply) (wParent : Window) :
    lineOf d w attrib prop wParent
      = spaces (2 * d) ++ ("w:0x" ++ (fmtlX w ++ (" " ++ (nameText (szNameOf prop)
          ++ attrText attrib wParent (szClassOf attrib.class)
              (szStateOf attrib.map_state) (Event2sz attrib.all_event_masks))))) := by
  unfold lineOf headText
  rw [szSpaceOf_eq]
  simp only [String.append_assoc]

theorem lineOf_indent (d : Nat) (w : Window) (attrib : XWindowAttributes)
    (prop : PropertyReply) (wParent : Window) :
    lineOf d w attrib prop wParent = spaces (2 * d) ++ lineOf 0 w attrib prop wParent := by
  rw [lineOf_eq d, lineOf_eq 0, Nat.mul_zero, spaces_zero, String.empty_append]

theorem str_append_left_cancel (a b c : String) (h : a ++ b = a ++ c) : b = c := by
  apply String.ext
  have := congrArg String.data h
  rw [String.data_append, String.data_append] at this
  exact List.append_cancel_left this

theorem attrText_eq (attrib : XWindowAttributes) (wParent : Window)
    (szClass szState szEvent : String) :
    attrText attrib wParent szClass szState szEvent
      = "x:" ++ (fmtD attrib.x ++ (" y:" ++ (fmtD attrib.y ++ (" width:"
          ++ (fmtD attrib.width ++ (" h:" ++ (fmtD attrib.height ++ (" parent:0x"
          ++ (fmtlX wParent ++ (" root:0x" ++ (fmtlX attrib.root ++ (" class:"
          ++ (szClass ++ (" state:" ++ (szState ++ (" allEvents:0x"
          ++ (fmtlX attrib.all_event_masks ++ ("(" ++ (szEvent ++ (")"
          ++ (" yourEvents:0x" ++ (fmtlX attrib.your_event_mask
          ++ (" overrideRedirect:" ++ (fmtD attrib.override_redirect
          ++ "\n")))))))))))))))))))))))) := by
  unfold attrText
  simp only [String.append_assoc]

theorem specOf_window_file (st : State) (d : Nat) (w : Window)
    (attrib : XWindowAttributes) (prop : PropertyReply) (wParent : Window)
    (kids : List WTree) (vs : List (Nat × WTree)) :
    (specOf st ((d, .window w attrib prop wParent kids) :: vs)).2.file
      = st.file ++ (lineOf d w attrib prop wParent ++ String.join (linesBefore vs)) := by
  rw [specOf_cons_window]
  simp only [specOf, State.write, String.append_assoc]

theorem DumpWindow_own_line (srv : Server) (a t : Atom) (w : Window) (L : Nat)
    (st : State) (attrib : XWindowAttributes)
    (h : srv.XGetWindowAttributes w = some attrib) :
    ∃ rest, (DumpWindow srv w a t L st).2.file
      = st.file ++ (ownLine srv a t L w attrib ++ rest) := by
  rw [DumpWindow_spec]
  unfold walkTree ownLine
  cases hr : WDUMP_MAXLEVEL - L with
  | zero =>
      rw [reachTree_zero srv a t w L attrib h, WTree.preorder]
      exact ⟨_, specOf_window_file _ _ _ _ _ _ _ _⟩
  | succ r =>
      rw [reachTree_succ srv a t r w L attrib h, WTree.preorder]
      exact ⟨_, specOf_window_file _ _ _ _ _ _ _ _⟩

/-! ## The walk: statements -/

theorem attrText_parent (attrib : XWindowAttributes) (wParent : Window)
    (szClass szState szEvent : String) :
    ∃ pre rest, attrText attrib wParent szClass szState szEvent
      = "x:" ++ (pre ++ ("parent:0x" ++ (fmtlX wParent ++ rest))) := by
  refine ⟨fmtD attrib.x ++ (" y:" ++ (fmtD attrib.y ++ (" width:"
      ++ (fmtD attrib.width ++ (" h:" ++ (fmtD attrib.height ++ " ")))))),
    " root:0x" ++ (fmtlX attrib.root ++ (" class:"
      ++ (szClass ++ (" state:" ++ (szState ++ (" allEvents:0x"
      ++ (fmtlX attrib.all_event_masks ++ ("(" ++ (szEvent ++ (")"
      ++ (" yourEvents:0x" ++ (fmtlX attrib.your_event_mask
      ++ (" overrideRedirect:" ++ (fmtD attrib.override_redirect
      ++ "\n")))))))))))))), ?_⟩
  have h : (" parent:0x" : String) = " " ++ "parent:0x" := by decide
  rw [attrText_eq, h]
  simp only [String.append_assoc]

/-- C2: for a window tree of height at most 10 that the server answers for, with every
attribute query and every tree query succeeding, `DumpWindow` on the root at depth 0
returns 0 and writes exactly the lines of the windows in pre-order, one per window; the
line of a window met at depth `d` starts with `2*d` spaces and `w:0x` and its own handle
in hexadecimal, and contains `parent:0x` and the parent handle of its tree query. -/
theorem DumpWindow_preorder (srv : Server) (a t : Atom) (tr : WTree) (st : State)
    (hs : tr.Serves srv a t) (hok : tr.allWindows = true)
    (hh : tr.height ≤ WDUMP_MAXLEVEL) :
    DumpWindow srv tr.handle a t 0 st
        = (0, st.write (String.join ((tr.preorder 0).map nodeLine)))
      ∧ (tr.preorder 0).length = tr.size
      ∧ ∀ (d : Nat) (w : Window) (attrib : XWindowAttributes) (prop : PropertyReply)
          (wParent : Window) (kids : List WTree),
          (d, WTree.window w attrib prop wParent kids) ∈ tr.preorder 0 →
          ∃ mid rest, nodeLine (d, WTree.window w attrib prop wParent kids)
            = spaces (2 * d) ++ ("w:0x" ++ (fmtlX w ++ (" " ++ (mid
                ++ ("parent:0x" ++ (fmtlX wParent ++ rest)))))) := by
  refine ⟨?_, preorder_length tr 0, ?_⟩
  · rw [DumpWindow_spec, walkTree_of_serves srv a t tr hh hs,
      specOf_of_all st _ (preorder_all tr 0 hok)]
  · intro d w attrib prop wParent kids _
    obtain ⟨pre, rest, hp⟩ := attrText_parent attrib wParent (szClassOf attrib.class)
      (szStateOf attrib.map_state) (Event2sz attrib.all_event_masks)
    refine ⟨nameText (szNameOf prop) ++ ("x:" ++ pre), rest, ?_⟩
    show lineOf d w attrib prop wParent = _
    rw [lineOf_eq, hp]
    simp only [String.append_assoc]

set_option maxRecDepth 100000 in
/-- C2, on the chain root 1, child 2, grandchild 3 without names: three lines in
pre-order with the indents of depth 0, 1 and 2. -/
theorem DumpWindow_preorder_chain :
    DumpWindow chainServer 1 39 31 0 { file := "", gszErr := "" }
      = (0, { file := "w:0x1 x:0 y:0 width:640 h:480 parent:0x0 root:0x1 class:InputOutput state:IsViewable allEvents:0x0() yourEvents:0x0 overrideRedirect:0\n  w:0x2 x:0 y:0 width:640 h:480 parent:0x1 root:0x1 class:InputOutput state:IsViewable allEvents:0x0() yourEvents:0x0 overrideRedirect:0\n    w:0x3 x:0 y:0 width:640 h:480 parent:0x2 root:0x1 class:InputOutput state:IsViewable allEvents:0x0() yourEvents:0x0 overrideRedirect:0\n",
              gszErr := "" }) :=
  (DumpWindow_preorder chainServer 39 31 chainTree { file := "", gszErr := "" }
    ⟨rfl, rfl, by decide, rfl, rfl,
      ⟨rfl, rfl, by decide, rfl, rfl, ⟨rfl, rfl, by decide, rfl, rfl, trivial⟩, trivial⟩,
      trivial⟩
    (by decide) (by decide)).1.trans (by decide)

theorem mem_preorderKids (ks : List WTree) (d : Nat) (v : Nat × WTree)
    (h : v ∈ WTree.preorderKids ks d) : ∃ k ∈ ks, v ∈ k.preorder d := by
  induction ks with
  | nil => simp [WTree.preorderKids] at h
  | cons x xs ih =>
      rw [WTree.preorderKids] at h
      rcases List.mem_append.mp h with h | h
      · exact ⟨x, List.mem_cons_self _ _, h⟩
      · obtain ⟨k, hk, hv⟩ := ih h
        exact ⟨k, List.mem_cons_of_mem _ hk, hv⟩

theorem reachTree_nodes (srv : Server) (a t : Atom) :
    ∀ (r : Nat) (w : Window) (L : Nat), ∀ v ∈ (reachTree srv a t r w L).preorder L,
      v.2.isWindow = (srv.XGetWindowAttributes v.2.handle).isSome := by
  intro r
  induction r with
  | zero =>
      intro w L v hv
      cases h : srv.XGetWindowAttributes w with
      | none =>
          rw [reachTree_broken srv a t 0 w L h, WTree.preorder] at hv
          rw [List.mem_singleton.mp hv]
          simp [WTree.isWindow, WTree.handle, h]
      | some attrib =>
          rw [reachTree_zero srv a t w L attrib h, WTree.preorder, WTree.preorderKids] at hv
          rw [List.mem_singleton.mp hv]
          simp [WTree.isWindow, WTree.handle, h]
  | succ r ih =>
      intro w L v hv
      cases h : srv.XGetWindowAttributes w with
      | none =>
          rw [reachTree_broken srv a t (r + 1) w L h, WTree.preorder] at hv
          rw [List.mem_singleton.mp hv]
          simp [WTree.isWindow, WTree.handle, h]
      | some attrib =>
          rw [reachTree_succ srv a t r w L attrib h, WTree.preorder] at hv
          rcases List.mem_cons.mp hv with hv | hv
          · rw [hv]
            simp [WTree.isWindow, WTree.handle, h]
          · obtain ⟨k, hk, hvk⟩ := mem_preorderKids _ _ v hv
            split at hk
            · obtain ⟨c, _, rfl⟩ := List.mem_map.mp hk
              exact ih c (L + 1) v hvk
            · cases hk

theorem takeWhile_congr_mem {α : Type} (p q : α → Bool) (l : List α)
    (h : ∀ x ∈ l, p x = q x) : l.takeWhile p = l.takeWhile q := by
  induction l with
  | nil => rfl
  | cons x xs ih =>
      rw [List.takeWhile_cons, List.takeWhile_cons, h x (List.mem_cons_self _ _),
        ih (fun y hy => h y (List.mem_cons_of_mem _ hy))]

theorem errOf_of_broken (vs : List (Nat × WTree))
    (h : ∃ v ∈ vs, v.2.isWindow = false) : errOf vs = ERROR_WDUMP_X11 := by
  unfold errOf
  rw [if_neg]
  rw [List.all_eq_true]
  intro hall
  obtain ⟨v, hv, hb⟩ := h
  rw [hall v hv] at hb
  cases hb

/-- C3: when the attribute query fails for some window within reach of the walk from
the root, `DumpWindow` on the root returns `ERROR_WDUMP_X11` (2, not 0), and what it
writes is exactly the lines of the windows that precede, in pre-order, the first window
whose attribute query fails: nothing for that window and nothing for any window after
it. -/
theorem DumpWindow_attribute_failure (srv : Server) (a t : Atom) (w : Window)
    (st : State)
    (hfail : ∃ v ∈ (walkTree srv a t w 0).preorder 0,
      srv.XGetWindowAttributes v.2.handle = none) :
    (DumpWindow srv w a t 0 st).1 = ERROR_WDUMP_X11
      ∧ (DumpWindow srv w a t 0 st).1 ≠ 0
      ∧ (DumpWindow srv w a t 0 st).2.file
          = st.file ++ String.join
              ((((walkTree srv a t w 0).preorder 0).takeWhile
                (fun v => (srv.XGetWindowAttributes v.2.handle).isSome)).map nodeLine) := by
  have hn := reachTree_nodes srv a t (WDUMP_MAXLEVEL - 0) w 0
  have hb : ∃ v ∈ (walkTree srv a t w 0).preorder 0, v.2.isWindow = false := by
    obtain ⟨v, hv, hq⟩ := hfail
    refine ⟨v, hv, ?_⟩
    rw [hn v hv, hq]
    rfl
  have he := errOf_of_broken _ hb
  rw [DumpWindow_spec]
  refine ⟨he, ?_, ?_⟩
  · show errOf _ ≠ 0
    rw [he]
    decide
  · show st.file ++ String.join (linesBefore _) = _
    unfold linesBefore
    rw [takeWhile_congr_mem _ (fun v => (srv.XGetWindowAttributes v.2.handle).isSome) _ hn]

set_option maxRecDepth 100000 in
/-- C3, on a root 1 with the children 2, 4, 3, where 2 has the child 5 and the attribute
query of 4 fails: the lines of 1, 2 and 5 are written, nothing for 4 and for 3. -/
theorem DumpWindow_attribute_failure_gap :
    (DumpWindow gapServer 1 39 31 0 { file := "", gszErr := "" }).1 = 2
      ∧ (DumpWindow gapServer 1 39 31 0 { file := "", gszErr := "" }).2.file
          = "w:0x1 x:0 y:0 width:640 h:480 parent:0x0 root:0x1 class:InputOutput state:IsViewable allEvents:0x0() yourEvents:0x0 overrideRedirect:0\n  w:0x2 x:0 y:0 width:640 h:480 parent:0x1 root:0x1 class:InputOutput state:IsViewable allEvents:0x0() yourEvents:0x0 overrideRedirect:0\n    w:0x5 x:0 y:0 width:640 h:480 parent:0x1 root:0x1 class:InputOutput state:IsViewable allEvents:0x0() yourEvents:0x0 overrideRedirect:0\n" :=
  have h := DumpWindow_attribute_failure gapServer 39 31 1 { file := "", gszErr := "" }
    (by decide)
  ⟨h.1, h.2.2.trans (by decide)⟩

theorem DumpWindow_leaf (srv : Server) (a t : Atom) (w : Window) (d : Nat) (st : State)
    (attrib : XWindowAttributes) (h : srv.XGetWindowAttributes w = some attrib)
    (hg : ¬ (d < WDUMP_MAXLEVEL ∧ (srv.XQueryTree w).iRet ≠ 0)) :
    DumpWindow srv w a t d st = (0, st.write (ownLine srv a t d w attrib)) := by
  unfold DumpWindow
  cases hr : WDUMP_MAXLEVEL - d with
  | zero => exact dumpLevels_zero srv a t w d st attrib h
  | succ r => rw [dumpLevels_succ srv a t r w d st attrib h, if_neg hg]

/-! ## The recursion equation of DumpWindow -/

theorem DumpWindow_failed (srv : Server) (a t : Atom) (w : Window) (L : Nat) (st : State)
    (h : srv.XGetWindowAttributes w = none) :
    DumpWindow srv w a t L st
      = (ERROR_WDUMP_X11,
          { st with gszErr := "XGetWindowAttributes(w:0x" ++ fmtlX w ++ ") failed!" }) :=
  dumpLevels_broken srv a t _ w L st h

theorem DumpWindow_unfold (srv : Server) (a t : Atom) (w : Window) (L : Nat) (st : State)
    (attrib : XWindowAttributes) (h : srv.XGetWindowAttributes w = some attrib) :
    DumpWindow srv w a t L st
      = if L < WDUMP_MAXLEVEL ∧ (srv.XQueryTree w).iRet ≠ 0 then
          childLoop (fun ch s => DumpWindow srv ch a t (L + 1) s)
            ((srv.XQueryTree w).pChildren.getD []) 0
            (st.write (ownLine srv a t L w attrib))
        else (0, st.write (ownLine srv a t L w attrib)) := by
  by_cases hg : L < WDUMP_MAXLEVEL ∧ (srv.XQueryTree w).iRet ≠ 0
  · rw [if_pos hg]
    unfold DumpWindow
    have hr : WDUMP_MAXLEVEL - L = (WDUMP_MAXLEVEL - (L + 1)) + 1 := by
      have := hg.1
      omega
    rw [hr, dumpLevels_succ srv a t _ w L st attrib h, if_pos hg]
  · rw [if_neg hg]
    exact DumpWindow_leaf srv a t w L st attrib h hg

/-- C4: at every depth `d ≥ 10`, for a window whose attribute query succeeds,
`DumpWindow` returns 0 and writes that window's own line and nothing else, whatever
children the server reports: no child is visited, and the result is the same on every
server that hands back the same attributes, name and parent for this window. -/
theorem DumpWindow_max_depth (srv : Server) (a t : Atom) (w : Window) (d : Nat)
    (st : State) (attrib : XWindowAttributes) (hd : WDUMP_MAXLEVEL ≤ d)
    (h : srv.XGetWindowAttributes w = some attrib) :
    DumpWindow srv w a t d st = (0, st.write (ownLine srv a t d w attrib))
      ∧ ∀ other : Server, other.XGetWindowAttributes w = some attrib →
          other.XGetWindowProperty w a 0 4 false t = srv.XGetWindowProperty w a 0 4 false t →
          (other.XQueryTree w).wParent = (srv.XQueryTree w).wParent →
          DumpWindow other w a t d st = DumpWindow srv w a t d st := by
  have key : ∀ s : Server, s.XGetWindowAttributes w = some attrib →
      DumpWindow s w a t d st = (0, st.write (ownLine s a t d w attrib)) := by
    intro s hs
    exact DumpWindow_leaf s a t w d st attrib hs (fun hg => absurd hg.1 (by omega))
  refine ⟨key srv h, ?_⟩
  intro other h1 h2 h3
  rw [key srv h, key other h1]
  unfold ownLine
  rw [h2, h3]

set_option maxRecDepth 100000 in
/-- C4, on the root of the chain at depth 10: one line with twenty spaces of indent, although
the server reports the child 2. -/
theorem DumpWindow_max_depth_chain :
    DumpWindow chainServer 1 39 31 10 { file := "", gszErr := "" }
      = (0, { file := "                    w:0x1 x:0 y:0 width:640 h:480 parent:0x0 root:0x1 class:InputOutput state:IsViewable allEvents:0x0() yourEvents:0x0 overrideRedirect:0\n",
              gszErr := "" }) :=
  (DumpWindow_max_depth chainServer 39 31 1 10 { file := "", gszErr := "" } exampleAttrib
    (by decide) rfl).1.trans (by decide)

/-- C10: at any depth, for a window whose attribute query succeeds and whose tree query
fails, `DumpWindow` returns 0 and writes that window's own line and nothing else; in the
loop of its parent the walk goes on with the remaining siblings. -/
theorem DumpWindow_tree_query_failure (srv : Server) (a t : Atom) (w : Window) (d : Nat)
    (st : State) (attrib : XWindowAttributes)
    (h : srv.XGetWindowAttributes w = some attrib)
    (hq : (srv.XQueryTree w).iRet = 0) :
    DumpWindow srv w a t d st = (0, st.write (ownLine srv a t d w attrib))
      ∧ ∀ siblings : List Window,
          childLoop (fun ch s => DumpWindow srv ch a t d s) (w :: siblings) 0 st
            = childLoop (fun ch s => DumpWindow srv ch a t d s) siblings 0
                (st.write (ownLine srv a t d w attrib)) := by
  have key := DumpWindow_leaf srv a t w d st attrib h (fun hg => hg.2 hq)
  refine ⟨key, ?_⟩
  intro siblings
  rw [childLoop]
  simp only [if_true, key]

set_option maxRecDepth 100000 in
/-- C10, on a root 1 with the children 2 and 3 where the tree query of 2 fails: 2 gets
its line and its sibling 3 is still visited. -/
theorem DumpWindow_tree_query_failure_deaf :
    DumpWindow deafServer 2 39 31 1 { file := "", gszErr := "" }
      = (0, { file := "  w:0x2 x:0 y:0 width:640 h:480 parent:0x7 root:0x1 class:InputOutput state:IsViewable allEvents:0x0() yourEvents:0x0 overrideRedirect:0\n",
              gszErr := "" })
      ∧ childLoop (fun ch s => DumpWindow deafServer ch 39 31 1 s) [2, 3] 0
            { file := "", gszErr := "" }
          = (0, { file := "  w:0x2 x:0 y:0 width:640 h:480 parent:0x7 root:0x1 class:InputOutput state:IsViewable allEvents:0x0() yourEvents:0x0 overrideRedirect:0\n  w:0x3 x:0 y:0 width:640 h:480 parent:0x1 root:0x1 class:InputOutput state:IsViewable allEvents:0x0() yourEvents:0x0 overrideRedirect:0\n",
                  gszErr := "" }) :=
  have h := DumpWindow_tree_query_failure deafServer 39 31 2 1 { file := "", gszErr := "" }
    exampleAttrib rfl rfl
  ⟨h.1.trans (by decide), (h.2 [3]).trans (by decide)⟩

/-! ## The fields of a line: statements -/

theorem lineOf_start (d : Nat) (w : Window) (attrib : XWindowAttributes)
    (prop : PropertyReply) (wParent : Window) :
    lineOf d w attrib prop wParent
      = lineStart d w ++ (nameText (szNameOf prop)
          ++ attrText attrib wParent (szClassOf attrib.class)
              (szStateOf attrib.map_state) (Event2sz attrib.all_event_masks)) := by
  rw [lineOf_eq]
  unfold lineStart
  simp only [String.append_assoc]

/-- C5: at every depth `d` from 0 to 10 the line `DumpWindow` writes for a window is
`2*d` spaces followed by the line it writes for that window, with the same attributes,
name and parent, at depth 0, and that line starts with `w:0x`; the indent is made of
spaces only and depends on nothing but the depth. -/
theorem line_indentation (srv : Server) (a t : Atom) (w : Window) (d : Nat) (st : State)
    (attrib : XWindowAttributes) (_hd : d ≤ WDUMP_MAXLEVEL)
    (h : srv.XGetWindowAttributes w = some attrib) :
    (∃ rest, (DumpWindow srv w a t d st).2.file
        = st.file ++ (spaces (2 * d) ++ ownLine srv a t 0 w attrib ++ rest))
      ∧ (∀ (prop : PropertyReply) (wParent : Window),
          lineOf d w attrib prop wParent = spaces (2 * d) ++ lineOf 0 w attrib prop wParent)
      ∧ (spaces (2 * d)).length = 2 * d
      ∧ (∀ c ∈ (spaces (2 * d)).data, c = ' ')
      ∧ ∃ rest, ownLine srv a t 0 w attrib = "w:0x" ++ rest := by
  refine ⟨?_, fun prop wParent => lineOf_indent d w attrib prop wParent,
    spaces_length _, spaces_chars _, ?_⟩
  · obtain ⟨rest, hr⟩ := DumpWindow_own_line srv a t w d st attrib h
    refine ⟨rest, ?_⟩
    rw [hr]
    unfold ownLine
    rw [lineOf_indent]
  · unfold ownLine
    rw [lineOf_eq, Nat.mul_zero, spaces_zero, String.empty_append]
    exact ⟨_, rfl⟩

set_option maxRecDepth 100000 in
/-- C5, on the window 2 of the chain at depth 1. -/
theorem line_indentation_chain :
    lineOf 1 2 exampleAttrib { iRet := 0, pProperty := none } 1
      = "  " ++ lineOf 0 2 exampleAttrib { iRet := 0, pProperty := none } 1 :=
  (line_indentation chainServer 39 31 2 1 { file := "", gszErr := "" } exampleAttrib
    (by decide) rfl).2.1 { iRet := 0, pProperty := none } 1

theorem data_ne_nil_of_ne_empty (s : String) (h : s ≠ "") : s.data ≠ [] := by
  intro hd
  apply h
  apply String.ext
  rw [hd]

theorem strncpyz_ne_empty (p : String) (n : Nat) (hn : 0 < n) (h : cText p ≠ "") :
    strncpyz p n ≠ "" := by
  have hd := data_ne_nil_of_ne_empty _ h
  intro he
  have := congrArg String.data he
  unfold strncpyz at this
  simp only at this
  cases hc : (cText p).data with
  | nil => exact hd hc
  | cons x xs =>
      rw [hc] at this
      cases n with
      | zero => omega
      | succ m => simp [List.take] at this

theorem strncpyz_of_empty (p : String) (n : Nat) (h : cText p = "") : strncpyz p n = "" := by
  unfold strncpyz
  rw [h]
  apply String.ext
  show List.take n [] = []
  exact List.take_nil

theorem szNameOf_ne_empty_iff (prop : PropertyReply) :
    szNameOf prop ≠ "" ↔ NameGiven prop := by
  unfold szNameOf NameGiven
  cases hp : prop.pProperty with
  | none => simp
  | some p =>
      by_cases hr : prop.iRet = Success
      · simp only [hr, if_true, true_and, Option.some.injEq, exists_eq_left']
        constructor
        · intro hne hc
          exact hne (strncpyz_of_empty p _ hc)
        · intro hc
          exact strncpyz_ne_empty p _ (by decide) hc
      · simp [hr]

theorem attrText_x (attrib : XWindowAttributes) (wParent : Window)
    (szClass szState szEvent : String) :
    ∃ tail, attrText attrib wParent szClass szState szEvent = "x:" ++ tail :=
  ⟨_, attrText_eq attrib wParent szClass szState szEvent⟩

theorem head_char_ne (a b : String) (h : "NAME:" ++ a = "x:" ++ b) : False := by
  have := congrArg String.data h
  rw [String.data_append, String.data_append] at this
  have h0 := congrArg List.head? this
  simp at h0

theorem cText_of_no_nul (p : String) (h : ∀ c ∈ p.data, c ≠ '\x00') : cText p = p := by
  apply String.ext
  show p.data.takeWhile (fun c => decide (c ≠ '\x00')) = p.data
  rw [List.takeWhile_eq_self_iff]
  intro c hc
  exact decide_eq_true (h c hc)

theorem ownLine_with_name (srv : Server) (a t : Atom) (d : Nat) (w : Window)
    (attrib : XWindowAttributes)
    (hn : NameGiven (srv.XGetWindowProperty w a 0 4 false t)) :
    ∃ tail, ownLine srv a t d w attrib
      = lineStart d w ++ ("NAME:" ++ (szNameOf (srv.XGetWindowProperty w a 0 4 false t)
          ++ (" " ++ ("x:" ++ tail)))) := by
  obtain ⟨tl, htl⟩ := attrText_x attrib (srv.XQueryTree w).wParent (szClassOf attrib.class)
    (szStateOf attrib.map_state) (Event2sz attrib.all_event_masks)
  refine ⟨tl, ?_⟩
  have hne := (szNameOf_ne_empty_iff _).mpr hn
  unfold ownLine
  rw [lineOf_start, htl]
  unfold nameText
  rw [if_pos hne]
  simp only [String.append_assoc]

theorem ownLine_without_name (srv : Server) (a t : Atom) (d : Nat) (w : Window)
    (attrib : XWindowAttributes)
    (hn : ¬ NameGiven (srv.XGetWindowProperty w a 0 4 false t)) :
    ∃ tail, ownLine srv a t d w attrib = lineStart d w ++ ("x:" ++ tail) := by
  obtain ⟨tl, htl⟩ := attrText_x attrib (srv.XQueryTree w).wParent (szClassOf attrib.class)
    (szStateOf attrib.map_state) (Event2sz attrib.all_event_masks)
  refine ⟨tl, ?_⟩
  have hne : ¬ szNameOf (srv.XGetWindowProperty w a 0 4 false t) ≠ "" :=
    fun hc => hn ((szNameOf_ne_empty_iff _).mp hc)
  unfold ownLine
  rw [lineOf_start, htl]
  unfold nameText
  rw [if_neg hne, String.empty_append]

theorem ownLine_name_iff (srv : Server) (a t : Atom) (d : Nat) (w : Window)
    (attrib : XWindowAttributes) :
    (∃ tail, ownLine srv a t d w attrib = lineStart d w ++ ("NAME:" ++ tail))
      ↔ NameGiven (srv.XGetWindowProperty w a 0 4 false t) := by
  constructor
  · rintro ⟨tail, ht⟩
    by_contra hn
    obtain ⟨tl, hno⟩ := ownLine_without_name srv a t d w attrib hn
    rw [hno] at ht
    exact head_char_ne _ _ (str_append_left_cancel _ _ _ ht).symm
  · intro hn
    obtain ⟨tl, hyes⟩ := ownLine_with_name srv a t d w attrib hn
    exact ⟨_, hyes⟩

set_option maxRecDepth 100000 in
/-- C6, as stated, fails on a window whose name data are a NUL byte followed by `abc`:
the query succeeds and hands back four bytes, a non-empty byte string, the event list
fits, and the line has no field `NAME:`. -/
theorem name_field_nul_first :
    DataGiven (nulFirstServer.XGetWindowProperty 1 39 0 4 false 31)
      ∧ ("\x00abc" : String).length = 4
      ∧ EventFits exampleAttrib.all_event_masks
      ∧ DumpWindow nulFirstServer 1 39 31 0 { file := "", gszErr := "" }
          = (0, { file := "w:0x1 x:0 y:0 width:640 h:480 parent:0x0 root:0x1 class:InputOutput state:IsViewable allEvents:0x0() yourEvents:0x0 overrideRedirect:0\n",
                  gszErr := "" })
      ∧ ¬ (∃ tail, ownLine nulFirstServer 39 31 0 1 exampleAttrib
            = lineStart 0 1 ++ ("NAME:" ++ tail))
      ∧ ¬ ((∃ tail, ownLine nulFirstServer 39 31 0 1 exampleAttrib
              = lineStart 0 1 ++ ("NAME:" ++ tail))
            ↔ DataGiven (nulFirstServer.XGetWindowProperty 1 39 0 4 false 31)) := by
  have hd : DataGiven (nulFirstServer.XGetWindowProperty 1 39 0 4 false 31) :=
    ⟨rfl, "\x00abc", rfl, by decide⟩
  have hn : ¬ NameGiven (nulFirstServer.XGetWindowProperty 1 39 0 4 false 31) := by
    rintro ⟨_, p, hp, hc⟩
    have e : p = "\x00abc" := (Option.some.inj hp).symm
    subst e
    exact hc (by decide)
  have hno : ¬ (∃ tail, ownLine nulFirstServer 39 31 0 1 exampleAttrib
      = lineStart 0 1 ++ ("NAME:" ++ tail)) :=
    fun hx => hn ((ownLine_name_iff nulFirstServer 39 31 0 1 exampleAttrib).mp hx)
  refine ⟨hd, by decide, ?_, by decide, hno, fun hiff => hno (hiff.mpr hd)⟩
  unfold EventFits
  decide

/-- C6, amended: for a window whose attribute query succeeds and whose decoded event
list fits `szEvent`, the line `DumpWindow` writes has the field `NAME:` right after
`w:0x<handle> ` exactly when the name query succeeded and handed back a buffer whose text
before the first NUL byte is non-empty; the field then holds that non-empty name, and
otherwise the line goes straight from `w:0x<handle> ` to `x:`. For data without a NUL
byte the text is the data. -/
theorem name_field_iff (srv : Server) (a t : Atom) (w : Window) (d : Nat) (st : State)
    (attrib : XWindowAttributes) (h : srv.XGetWindowAttributes w = some attrib)
    (_hfit : EventFits attrib.all_event_masks) :
    (∃ rest, (DumpWindow srv w a t d st).2.file
        = st.file ++ (ownLine srv a t d w attrib ++ rest))
      ∧ ((∃ tail, ownLine srv a t d w attrib = lineStart d w ++ ("NAME:" ++ tail))
          ↔ NameGiven (srv.XGetWindowProperty w a 0 4 false t))
      ∧ ((∃ tail, ownLine srv a t d w attrib = lineStart d w ++ ("x:" ++ tail))
          ↔ ¬ NameGiven (srv.XGetWindowProperty w a 0 4 false t))
      ∧ (NameGiven (srv.XGetWindowProperty w a 0 4 false t) →
          szNameOf (srv.XGetWindowProperty w a 0 4 false t) ≠ ""
          ∧ ∃ tail, ownLine srv a t d w attrib
              = lineStart d w ++ ("NAME:"
                  ++ (szNameOf (srv.XGetWindowProperty w a 0 4 false t)
                  ++ (" " ++ ("x:" ++ tail)))))
      ∧ (∀ p, (srv.XGetWindowProperty w a 0 4 false t).pProperty = some p →
          (∀ c ∈ p.data, c ≠ '\x00') →
          (NameGiven (srv.XGetWindowProperty w a 0 4 false t)
            ↔ DataGiven (srv.XGetWindowProperty w a 0 4 false t))) := by
  refine ⟨DumpWindow_own_line srv a t w d st attrib h,
    ownLine_name_iff srv a t d w attrib, ⟨?_, ?_⟩, ?_, ?_⟩
  · rintro ⟨tail, ht⟩ hn
    obtain ⟨tl, hyes⟩ := ownLine_with_name srv a t d w attrib hn
    rw [hyes] at ht
    exact head_char_ne _ _ (str_append_left_cancel _ _ _ ht)
  · intro hn
    exact ownLine_without_name srv a t d w attrib hn
  · intro hn
    exact ⟨(szNameOf_ne_empty_iff _).mpr hn, ownLine_with_name srv a t d w attrib hn⟩
  · intro p hp hnul
    have hc := cText_of_no_nul p hnul
    unfold NameGiven DataGiven
    constructor
    · rintro ⟨hr, q, hq, hne⟩
      have e : q = p := Option.some.inj (hq.symm.trans hp)
      subst e
      rw [hc] at hne
      exact ⟨hr, q, hq, hne⟩
    · rintro ⟨hr, q, hq, hne⟩
      have e : q = p := Option.some.inj (hq.symm.trans hp)
      subst e
      exact ⟨hr, q, hq, by rw [hc]; exact hne⟩

set_option maxRecDepth 100000 in
/-- C6, amended, on a window with the name `xterm` and on a window without a name. -/
theorem name_field_iff_named :
    NameGiven (namedServer.XGetWindowProperty 2 39 0 4 false 31)
      ∧ ¬ NameGiven (namedServer.XGetWindowProperty 3 39 0 4 false 31)
      ∧ EventFits exampleAttrib.all_event_masks
      ∧ (∃ tail, ownLine namedServer 39 31 1 2 exampleAttrib
          = "  w:0x2 " ++ ("NAME:" ++ tail))
      ∧ (∃ tail, ownLine namedServer 39 31 2 3 exampleAttrib
          = "    w:0x3 " ++ ("x:" ++ tail)) :=
  have h2 : NameGiven (namedServer.XGetWindowProperty 2 39 0 4 false 31) :=
    ⟨rfl, "xterm", rfl, by decide⟩
  have h3 : ¬ NameGiven (namedServer.XGetWindowProperty 3 39 0 4 false 31) :=
    fun hn => by obtain ⟨_, p, hp, _⟩ := hn; cases hp
  have hf : EventFits exampleAttrib.all_event_masks := by
    unfold EventFits
    decide
  ⟨h2, h3, hf,
    (name_field_iff namedServer 39 31 2 1 { file := "", gszErr := "" } exampleAttrib
      rfl hf).2.1.mpr h2,
    (name_field_iff namedServer 39 31 3 2 { file := "", gszErr := "" } exampleAttrib
      rfl hf).2.2.1.mpr h3⟩

theorem take_append_drop_str (s : String) (n : Nat) :
    s = (⟨s.data.take n⟩ : String) ++ ⟨s.data.drop n⟩ := by
  apply String.ext
  rw [String.data_append]
  exact (List.take_append_drop n s.data).symm

set_option maxRecDepth 100000 in
/-- C7, as stated, fails on a window whose name data are `ab`, a NUL byte and `cd`: the
query succeeds and hands back five bytes, at most 199, the event list fits, and the name
rendered after `NAME:` is `ab`, two characters, not the data unchanged. -/
theorem name_with_nul_inside :
    (nulInsideServer.XGetWindowProperty 1 39 0 4 false 31).iRet = Success
      ∧ (nulInsideServer.XGetWindowProperty 1 39 0 4 false 31).pProperty = some "ab\x00cd"
      ∧ ("ab\x00cd" : String).length = 5
      ∧ EventFits exampleAttrib.all_event_masks
      ∧ szNameOf (nulInsideServer.XGetWindowProperty 1 39 0 4 false 31) = "ab"
      ∧ szNameOf (nulInsideServer.XGetWindowProperty 1 39 0 4 false 31) ≠ "ab\x00cd"
      ∧ (szNameOf (nulInsideServer.XGetWindowProperty 1 39 0 4 false 31)).length
          ≠ min 199 ("ab\x00cd" : String).length
      ∧ DumpWindow nulInsideServer 1 39 31 0 { file := "", gszErr := "" }
          = (0, { file := "w:0x1 NAME:ab x:0 y:0 width:640 h:480 parent:0x0 root:0x1 class:InputOutput state:IsViewable allEvents:0x0() yourEvents:0x0 overrideRedirect:0\n",
                  gszErr := "" }) := by
  refine ⟨rfl, rfl, by decide, ?_, by decide, by decide, by decide, by decide⟩
  unfold EventFits
  decide

/-- C7, amended: for a window whose attribute query succeeds and whose decoded event
list fits `szEvent`, when the name query succeeds and hands back a buffer, the name
`DumpWindow` renders is the first `min 199 n` characters of the text of the buffer before
its first NUL byte, `n` being the length of that text: a text of at most 199 characters
is rendered unchanged, a longer one is cut to its first 199 characters, and in the line
the name is followed directly by the space and `x:`, with no mark of the cut. For data
without a NUL byte the text is the data. -/
theorem name_truncation (srv : Server) (a t : Atom) (w : Window) (d : Nat) (st : State)
    (attrib : XWindowAttributes) (p : String)
    (h : srv.XGetWindowAttributes w = some attrib)
    (_hfit : EventFits attrib.all_event_masks)
    (hr : (srv.XGetWindowProperty w a 0 4 false t).iRet = Success)
    (hp : (srv.XGetWindowProperty w a 0 4 false t).pProperty = some p) :
    szNameOf (srv.XGetWindowProperty w a 0 4 false t) = ⟨(cText p).data.take 199⟩
      ∧ (szNameOf (srv.XGetWindowProperty w a 0 4 false t)).length
          = min 199 (cText p).length
      ∧ (∃ rest, cText p = szNameOf (srv.XGetWindowProperty w a 0 4 false t) ++ rest)
      ∧ ((cText p).length ≤ 199 →
          szNameOf (srv.XGetWindowProperty w a 0 4 false t) = cText p)
      ∧ (199 < (cText p).length →
          (szNameOf (srv.XGetWindowProperty w a 0 4 false t)).length = 199)
      ∧ (cText p ≠ "" →
          ∃ tail rest, (DumpWindow srv w a t d st).2.file
            = st.file ++ (lineStart d w ++ ("NAME:" ++ ((⟨(cText p).data.take 199⟩ : String)
                ++ (" " ++ ("x:" ++ tail)))) ++ rest))
      ∧ ((∀ c ∈ p.data, c ≠ '\x00') →
          cText p = p
          ∧ szNameOf (srv.XGetWindowProperty w a 0 4 false t) = ⟨p.data.take 199⟩
          ∧ (szNameOf (srv.XGetWindowProperty w a 0 4 false t)).length
              = min 199 p.length
          ∧ (p.length ≤ 199 → szNameOf (srv.XGetWindowProperty w a 0 4 false t) = p)) := by
  have hname : szNameOf (srv.XGetWindowProperty w a 0 4 false t)
      = ⟨(cText p).data.take 199⟩ := by
    unfold szNameOf
    rw [hp]
    simp only [hr, if_true]
    rfl
  have hlen : (szNameOf (srv.XGetWindowProperty w a 0 4 false t)).length
      = min 199 (cText p).length := by
    rw [hname]
    show ((cText p).data.take 199).length = _
    rw [List.length_take]
    rfl
  have hle : (cText p).length ≤ 199 →
      szNameOf (srv.XGetWindowProperty w a 0 4 false t) = cText p := by
    intro hle
    rw [hname]
    apply String.ext
    exact List.take_of_length_le hle
  refine ⟨hname, hlen, ?_, hle, ?_, ?_, ?_⟩
  · rw [hname]
    exact ⟨_, take_append_drop_str (cText p) 199⟩
  · intro hlt
    rw [hlen]
    omega
  · intro hne
    have hg : NameGiven (srv.XGetWindowProperty w a 0 4 false t) := ⟨hr, p, hp, hne⟩
    have hne2 := (szNameOf_ne_empty_iff _).mpr hg
    obtain ⟨tl, htl⟩ := attrText_x attrib (srv.XQueryTree w).wParent
      (szClassOf attrib.class) (szStateOf attrib.map_state)
      (Event2sz attrib.all_event_masks)
    obtain ⟨rest, hrest⟩ := DumpWindow_own_line srv a t w d st attrib h
    refine ⟨tl, rest, ?_⟩
    rw [hrest]
    unfold ownLine
    rw [lineOf_start, htl]
    unfold nameText
    rw [if_pos hne2, hname]
    simp only [String.append_assoc]
  · intro hnul
    have hc := cText_of_no_nul p hnul
    rw [hc] at hname hlen hle
    exact ⟨hc, hname, hlen, hle⟩

set_option maxRecDepth 100000 in
/-- C7, amended, on a name of 205 characters: the rendered name is its first 199
characters. -/
theorem name_truncation_long :
    EventFits exampleAttrib.all_event_masks
      ∧ szNameOf (longNameServer.XGetWindowProperty 1 39 0 4 false 31)
          = ⟨List.replicate 199 'a'⟩
      ∧ (szNameOf (longNameServer.XGetWindowProperty 1 39 0 4 false 31)).length = 199 :=
  have hf : EventFits exampleAttrib.all_event_masks := by
    unfold EventFits
    decide
  have h := name_truncation longNameServer 39 31 1 0 { file := "", gszErr := "" }
    exampleAttrib longName rfl hf rfl rfl
  ⟨hf, h.1.trans (by decide), h.2.2.2.2.1 (by decide)⟩

theorem ownLine_layout (srv : Server) (a t : Atom) (d : Nat) (w : Window)
    (attrib : XWindowAttributes) :
    ownLine srv a t d w attrib
      = lineStart d w ++ (nameText (szNameOf (srv.XGetWindowProperty w a 0 4 false t)) ++ (
          "x:" ++ (fmtD attrib.x ++ (" y:" ++ (fmtD attrib.y ++ (" width:" ++ (
          fmtD attrib.width ++ (" h:" ++ (fmtD attrib.height ++ (" parent:0x" ++ (
          fmtlX (srv.XQueryTree w).wParent ++ (" root:0x" ++ (fmtlX attrib.root ++ (
          " class:" ++ (szClassOf attrib.class ++ (" state:" ++ (
          szStateOf attrib.map_state ++ (" allEvents:0x" ++ (
          fmtlX attrib.all_event_masks ++ ("(" ++ (Event2sz attrib.all_event_masks ++ (
          ")" ++ (" yourEvents:0x" ++ (fmtlX attrib.your_event_mask ++ (
          " overrideRedirect:" ++ (fmtD attrib.override_redirect ++ ("\n"))))))))))))))))))))))))))) := by
  unfold ownLine
  rw [lineOf_start, attrText_eq]

theorem fmtD_ne_of_mem (v : Int) (s : String) (c : Char) (hc : c ∈ s.data)
    (h1 : c ≠ '-') (h2 : c.isDigit = false) : fmtD v ≠ s := by
  intro he
  rw [← he] at hc
  rcases fmtD_chars v c hc with h | h
  · exact h1 h
  · rw [h2] at h
    cases h

theorem szClassOf_cases (c : Int) :
    (szClassOf c = "InputOutput" ↔ c = 1) ∧ (szClassOf c = "InputOnly" ↔ c = 2)
      ∧ (c ≠ 1 → c ≠ 2 → szClassOf c = fmtD c) := by
  have n1 : fmtD c ≠ "InputOutput" := fmtD_ne_of_mem c _ 'I' (by decide) (by decide) (by decide)
  have n2 : fmtD c ≠ "InputOnly" := fmtD_ne_of_mem c _ 'I' (by decide) (by decide) (by decide)
  by_cases h1 : c = 1
  · subst h1
    exact ⟨by decide, by decide, fun h => absurd rfl h⟩
  · by_cases h2 : c = 2
    · subst h2
      exact ⟨by decide, by decide, fun _ h => absurd rfl h⟩
    · have key : szClassOf c = fmtD c := by
        unfold szClassOf InputOutput InputOnly
        rw [if_neg h1, if_neg h2]
      rw [key]
      exact ⟨⟨fun h => absurd h n1, fun h => absurd h h1⟩,
        ⟨fun h => absurd h n2, fun h => absurd h h2⟩, fun _ _ => rfl⟩

theorem szStateOf_cases (s : Int) :
    (szStateOf s = "IsUnmapped" ↔ s = 0) ∧ (szStateOf s = "IsUnviewable" ↔ s = 1)
      ∧ (szStateOf s = "IsViewable" ↔ s = 2)
      ∧ (s ≠ 0 → s ≠ 1 → s ≠ 2 → szStateOf s = fmtD s) := by
  have n0 : fmtD s ≠ "IsUnmapped" := fmtD_ne_of_mem s _ 'I' (by decide) (by decide) (by decide)
  have n1 : fmtD s ≠ "IsUnviewable" := fmtD_ne_of_mem s _ 'I' (by decide) (by decide) (by decide)
  have n2 : fmtD s ≠ "IsViewable" := fmtD_ne_of_mem s _ 'I' (by decide) (by decide) (by decide)
  by_cases h0 : s = 0
  · subst h0
    exact ⟨by decide, by decide, by decide, fun h => absurd rfl h⟩
  · by_cases h1 : s = 1
    · subst h1
      exact ⟨by decide, by decide, by decide, fun _ h => absurd rfl h⟩
    · by_cases h2 : s = 2
      · subst h2
        exact ⟨by decide, by decide, by decide, fun _ _ h => absurd rfl h⟩
      · have key : szStateOf s = fmtD s := by
          unfold szStateOf IsUnmapped IsUnviewable IsViewable
          rw [if_neg h0, if_neg h1, if_neg h2]
        rw [key]
        exact ⟨⟨fun h => absurd h n0, fun h => absurd h h0⟩,
          ⟨fun h => absurd h n1, fun h => absurd h h1⟩,
          ⟨fun h => absurd h n2, fun h => absurd h h2⟩, fun _ _ _ => rfl⟩

/-- C8: in the line `DumpWindow` writes for a window, the field `class:` holds
`InputOutput` when the window class is 1, `InputOnly` when it is 2, and for every other
integer its decimal numeral, with a leading `-` when it is negative; no other value is
rendered as one of the two labels. -/
theorem class_field (srv : Server) (a t : Atom) (w : Window) (d : Nat) (st : State)
    (attrib : XWindowAttributes) (h : srv.XGetWindowAttributes w = some attrib) :
    (∃ rest, (DumpWindow srv w a t d st).2.file
        = st.file ++ (ownLine srv a t d w attrib ++ rest))
      ∧ (∃ post, ownLine srv a t d w attrib
          = lineStart d w ++ (nameText (szNameOf (srv.XGetWindowProperty w a 0 4 false t)) ++ (
              "x:" ++ (fmtD attrib.x ++ (" y:" ++ (fmtD attrib.y ++ (" width:" ++ (
              fmtD attrib.width ++ (" h:" ++ (fmtD attrib.height ++ (" parent:0x" ++ (
              fmtlX (srv.XQueryTree w).wParent ++ (" root:0x" ++ (fmtlX attrib.root ++ (
              " class:" ++ (szClassOf attrib.class ++ (" state:" ++ (post))))))))))))))))))
      ∧ (szClassOf attrib.class = "InputOutput" ↔ attrib.class = 1)
      ∧ (szClassOf attrib.class = "InputOnly" ↔ attrib.class = 2)
      ∧ (attrib.class ≠ 1 → attrib.class ≠ 2 → szClassOf attrib.class = fmtD attrib.class)
      ∧ fmtD attrib.class
          = (if attrib.class < 0 then "-" ++ Nat.repr attrib.class.natAbs
              else Nat.repr attrib.class.natAbs) := by
  have hc := szClassOf_cases attrib.class
  exact ⟨DumpWindow_own_line srv a t w d st attrib h, ⟨_, ownLine_layout srv a t d w attrib⟩,
    hc.1, hc.2.1, hc.2.2, rfl⟩

set_option maxRecDepth 100000 in
/-- C8, on a window of class -3: the field holds the numeral `-3`. -/
theorem class_field_odd :
    szClassOf oddAttrib.class = "-3"
      ∧ ownLine oddServer 39 31 0 1 oddAttrib
          = "w:0x1 x:-5 y:12 width:30 h:40 parent:0x0 root:0x1 class:-3 state:7 allEvents:0x0() yourEvents:0x0 overrideRedirect:1\n" :=
  have h := class_field oddServer 39 31 1 0 { file := "", gszErr := "" } oddAttrib rfl
  ⟨(h.2.2.2.2.1 (by decide) (by decide)).trans (by decide), by decide⟩

/-- C9: in the line `DumpWindow` writes for a window, the field `state:` holds
`IsUnmapped` when the map state is 0, `IsUnviewable` when it is 1, `IsViewable` when it
is 2, and for every other integer its decimal numeral; exactly these three values are
rendered as labels. -/
theorem state_field (srv : Server) (a t : Atom) (w : Window) (d : Nat) (st : State)
    (attrib : XWindowAttributes) (h : srv.XGetWindowAttributes w = some attrib) :
    (∃ rest, (DumpWindow srv w a t d st).2.file
        = st.file ++ (ownLine srv a t d w attrib ++ rest))
      ∧ (∃ post, ownLine srv a t d w attrib
          = lineStart d w ++ (nameText (szNameOf (srv.XGetWindowProperty w a 0 4 false t)) ++ (
              "x:" ++ (fmtD attrib.x ++ (" y:" ++ (fmtD attrib.y ++ (" width:" ++ (
              fmtD attrib.width ++ (" h:" ++ (fmtD attrib.height ++ (" parent:0x" ++ (
              fmtlX (srv.XQueryTree w).wParent ++ (" root:0x" ++ (fmtlX attrib.root ++ (
              " class:" ++ (szClassOf attrib.class ++ (" state:" ++ (
              szStateOf attrib.map_state ++ (" allEvents:0x" ++ (post))))))))))))))))))))
      ∧ (szStateOf attrib.map_state = "IsUnmapped" ↔ attrib.map_state = 0)
      ∧ (szStateOf attrib.map_state = "IsUnviewable" ↔ attrib.map_state = 1)
      ∧ (szStateOf attrib.map_state = "IsViewable" ↔ attrib.map_state = 2)
      ∧ (attrib.map_state ≠ 0 → attrib.map_state ≠ 1 → attrib.map_state ≠ 2 →
          szStateOf attrib.map_state = fmtD attrib.map_state)
      ∧ fmtD attrib.map_state
          = (if attrib.map_state < 0 then "-" ++ Nat.repr attrib.map_state.natAbs
              else Nat.repr attrib.map_state.natAbs) := by
  have hs := szStateOf_cases attrib.map_state
  exact ⟨DumpWindow_own_line srv a t w d st attrib h, ⟨_, ownLine_layout srv a t d w attrib⟩,
    hs.1, hs.2.1, hs.2.2.1, hs.2.2.2, rfl⟩

set_option maxRecDepth 100000 in
/-- C9, on a viewable window and on a window of map state 7. -/
theorem state_field_odd :
    szStateOf exampleAttrib.map_state = "IsViewable"
      ∧ szStateOf oddAttrib.map_state = "7" :=
  have h1 := state_field chainServer 39 31 1 0 { file := "", gszErr := "" } exampleAttrib rfl
  have h2 := state_field oddServer 39 31 1 0 { file := "", gszErr := "" } oddAttrib rfl
  ⟨h1.2.2.2.2.1.mpr rfl,
    (h2.2.2.2.2.2.1 (by decide) (by decide) (by decide)).trans (by decide)⟩

/-! ## main: the outcomes -/

theorem main_no_clock (env : Env) (h : env.localtime = none) :
    main env = { status := 0, stdout := "SYSTEM ERROR: localtime() failed!\n", file := none } := by
  simp only [main, mainRun, mainClock, h, mainStart, mainOpen, mainConnect, mainAtoms,
    mainDump, mainReport, mainClose, ERROR_WDUMP_SYS, ERROR_WDUMP_X11]
  simp

theorem main_no_file (env : Env) (tm : Tm) (h1 : env.localtime = some tm)
    (h2 : env.fopen (fileName tm) = false) :
    main env = { status := 0,
                 stdout := "SYSTEM ERROR: " ++ ("fopen(" ++ fileName tm ++ ") failed!") ++ "\n",
                 file := none } := by
  simp only [main, mainRun, mainClock, h1, mainStart, mainOpen, mainConnect, mainAtoms,
    mainDump, mainReport, mainClose, ERROR_WDUMP_SYS, ERROR_WDUMP_X11, h2]
  simp

theorem main_no_display (env : Env) (tm : Tm) (h1 : env.localtime = some tm)
    (h2 : env.fopen (fileName tm) = true) (h3 : env.XOpenDisplay = none) :
    main env = { status := 0,
                 stdout := "File: " ++ fileName tm ++ "\n"
                    ++ "X11 ERROR: XOpenDisplay() failed!\n" ++ "  Done.\n\n",
                 file := some ("File: " ++ fileName tm ++ "\n\n" ++ "\nDone.\n") } := by
  simp only [main, mainRun, mainClock, h1, mainStart, mainOpen, mainConnect, mainAtoms,
    mainDump, mainReport, mainClose, ERROR_WDUMP_SYS, ERROR_WDUMP_X11, h2, h3, fprintf]
  simp [String.append_assoc]

theorem main_no_atoms (env : Env) (tm : Tm) (d : Display) (h1 : env.localtime = some tm)
    (h2 : env.fopen (fileName tm) = true) (h3 : env.XOpenDisplay = some d)
    (h4 : d.XInternAtom "WM_NAME" false = None ∨ d.XInternAtom "STRING" false = None) :
    main env = { status := 0,
                 stdout := "File: " ++ fileName tm ++ "\n"
                    ++ "X11 ERROR: XInternAtom() failed!\n" ++ "  Done.\n\n",
                 file := some (headerText tm d.XDefaultRootWindow ++ "\nDone.\n") } := by
  simp only [main, mainRun, mainClock, h1, mainStart, mainOpen, mainConnect, mainAtoms,
    mainDump, mainReport, mainClose, ERROR_WDUMP_SYS, ERROR_WDUMP_X11, h2, h3, fprintf,
    headerText]
  simp [String.append_assoc, h4]

theorem mainReport_pFile (s : MainState) : (mainReport s).pFile = s.pFile := by
  unfold mainReport
  split
  · rfl
  · split <;> rfl

theorem mainReport_stdout (s : MainState) :
    (mainReport s).stdout = s.stdout ++ reportText s.iErr s.gszErr := by
  unfold mainReport reportText
  split
  · rfl
  · split
    · rfl
    · exact (String.append_empty _).symm

theorem mainClose_of_some (s : MainState) (f : String) (h : s.pFile = some f) :
    (mainClose s).pFile = some (f ++ "\nDone.\n")
      ∧ (mainClose s).stdout = s.stdout ++ "  Done.\n\n" := by
  unfold mainClose
  split
  · next g hg =>
      rw [h] at hg
      cases hg
      exact ⟨rfl, rfl⟩
  · next hg =>
      rw [h] at hg
      cases hg

theorem mainClose_of_none (s : MainState) (h : s.pFile = none) : mainClose s = s := by
  unfold mainClose
  split
  · next g hg =>
      rw [h] at hg
      cases hg
  · rfl

theorem main_of_open (env : Env) (s : MainState) (f : String)
    (hs : mainDump (mainAtoms (mainConnect env (mainOpen env (mainClock env mainStart)))) = s)
    (hf : s.pFile = some f) :
    main env = { status := 0,
                 stdout := s.stdout ++ reportText s.iErr s.gszErr ++ "  Done.\n\n",
                 file := some (f ++ "\nDone.\n") } := by
  have hc := mainClose_of_some (mainReport s) f (by rw [mainReport_pFile, hf])
  show ({ status := 0, stdout := (mainRun env).stdout, file := (mainRun env).pFile } : Outcome) = _
  unfold mainRun
  rw [hs, hc.1, hc.2, mainReport_stdout]

theorem main_walk (env : Env) (tm : Tm) (d : Display) (h1 : env.localtime = some tm)
    (h2 : env.fopen (fileName tm) = true) (h3 : env.XOpenDisplay = some d)
    (h4 : d.XInternAtom "WM_NAME" false ≠ None) (h5 : d.XInternAtom "STRING" false ≠ None) :
    main env = { status := 0,
                 stdout := "File: " ++ fileName tm ++ "\n"
                    ++ reportText (mainCall tm d).1 (mainCall tm d).2.gszErr ++ "  Done.\n\n",
                 file := some ((mainCall tm d).2.file ++ "\nDone.\n") } := by
  have hs : mainDump (mainAtoms (mainConnect env (mainOpen env (mainClock env mainStart))))
      = { iErr := (mainCall tm d).1, gszErr := (mainCall tm d).2.gszErr, sz := fileName tm,
          pTm := some tm, pFile := some (mainCall tm d).2.file, pX11Display := some d,
          wRoot := d.XDefaultRootWindow, aName := d.XInternAtom "WM_NAME" false,
          aTypeStr := d.XInternAtom "STRING" false,
          stdout := "File: " ++ fileName tm ++ "\n" } := by
    simp only [mainClock, h1, mainStart, mainOpen, mainConnect, mainAtoms,
      mainDump, h2, h3, fprintf, h4, h5, or_self, if_false, if_true,
      Option.map_some', String.empty_append, mainCall, headerText]
  exact main_of_open env _ _ hs rfl

/-- C11: when the clock, the file, the display and both atoms are fine and the attribute
query of the root window fails, the output file holds exactly the line `File: <name>`, an
empty line, the line `Root: 0x<hex>`, an empty line, and the trailer (an empty line and
`Done.`): no window line. -/
theorem main_root_attribute_failure (env : Env) (tm : Tm) (d : Display)
    (h1 : env.localtime = some tm) (h2 : env.fopen (fileName tm) = true)
    (h3 : env.XOpenDisplay = some d)
    (h4 : d.XInternAtom "WM_NAME" false ≠ None) (h5 : d.XInternAtom "STRING" false ≠ None)
    (h6 : d.server.XGetWindowAttributes d.XDefaultRootWindow = none) :
    (main env).file
      = some (String.join ["File: " ++ fileName tm ++ "\n", "\n",
          "Root: 0x" ++ fmtlX d.XDefaultRootWindow ++ "\n", "\n", "\n", "Done.\n"]) := by
  have hn : ("\n\n" : String) = "\n" ++ "\n" := by decide
  have hd : ("\nDone.\n" : String) = "\n" ++ "Done.\n" := by decide
  rw [main_walk env tm d h1 h2 h3 h4 h5]
  unfold mainCall
  rw [DumpWindow_failed _ _ _ _ _ _ h6]
  simp only [join_cons, join_nil, headerText, hn, hd, String.append_assoc,
    String.append_empty]

set_option maxRecDepth 100000 in
/-- C11, on a server where every attribute query fails, at 9:05 on 20 May 2019. -/
theorem main_root_attribute_failure_blind :
    (main (envOf blindServer)).file
      = some "File: x11wdump-2019.05.20-9h05.txt\n\nRoot: 0x1\n\n\nDone.\n" :=
  (main_root_attribute_failure (envOf blindServer) exampleTm (displayOf blindServer)
    rfl rfl rfl (by decide) (by decide) rfl).trans (by decide)

/-- C13: in every run in which the file is opened, whatever happens afterwards, the text
of the file ends with an empty line and `Done.`; before this trailer it keeps the header
when the display cannot be opened, the header and the root line when an atom is missing,
and otherwise the header, the root line and every line the walk wrote, up to the first
window whose attribute query fails. -/
theorem main_trailer (env : Env) (tm : Tm) (h1 : env.localtime = some tm)
    (h2 : env.fopen (fileName tm) = true) :
    (∃ body, (main env).file = some ("File: " ++ fileName tm ++ "\n\n" ++ body ++ "\nDone.\n"))
      ∧ (env.XOpenDisplay = none →
          (main env).file = some ("File: " ++ fileName tm ++ "\n\n" ++ "\nDone.\n"))
      ∧ (∀ d, env.XOpenDisplay = some d →
          (d.XInternAtom "WM_NAME" false = None ∨ d.XInternAtom "STRING" false = None) →
          (main env).file = some (headerText tm d.XDefaultRootWindow ++ "\nDone.\n"))
      ∧ (∀ d, env.XOpenDisplay = some d →
          d.XInternAtom "WM_NAME" false ≠ None → d.XInternAtom "STRING" false ≠ None →
          (main env).file
            = some (headerText tm d.XDefaultRootWindow
                ++ String.join (linesBefore ((walkTree d.server
                    (d.XInternAtom "WM_NAME" false) (d.XInternAtom "STRING" false)
                    d.XDefaultRootWindow 0).preorder 0))
                ++ "\nDone.\n")) := by
  have c2 : env.XOpenDisplay = none →
      (main env).file = some ("File: " ++ fileName tm ++ "\n\n" ++ "\nDone.\n") := by
    intro h3
    rw [main_no_display env tm h1 h2 h3]
  have c3 : ∀ d, env.XOpenDisplay = some d →
      (d.XInternAtom "WM_NAME" false = None ∨ d.XInternAtom "STRING" false = None) →
      (main env).file = some (headerText tm d.XDefaultRootWindow ++ "\nDone.\n") := by
    intro d h3 h4
    rw [main_no_atoms env tm d h1 h2 h3 h4]
  have c4 : ∀ d, env.XOpenDisplay = some d →
      d.XInternAtom "WM_NAME" false ≠ None → d.XInternAtom "STRING" false ≠ None →
      (main env).file
        = some (headerText tm d.XDefaultRootWindow
            ++ String.join (linesBefore ((walkTree d.server
                (d.XInternAtom "WM_NAME" false) (d.XInternAtom "STRING" false)
                d.XDefaultRootWindow 0).preorder 0))
            ++ "\nDone.\n") := by
    intro d h3 h4 h5
    rw [main_walk env tm d h1 h2 h3 h4 h5]
    unfold mainCall
    rw [DumpWindow_spec]
    rfl
  refine ⟨?_, c2, c3, c4⟩
  cases h3 : env.XOpenDisplay with
  | none =>
      refine ⟨"", ?_⟩
      rw [c2 h3, String.append_empty]
  | some d =>
      by_cases h4 : d.XInternAtom "WM_NAME" false = None ∨ d.XInternAtom "STRING" false = None
      · refine ⟨"Root: 0x" ++ fmtlX d.XDefaultRootWindow ++ "\n\n", ?_⟩
        rw [c3 d h3 h4]
        rfl
      · refine ⟨"Root: 0x" ++ fmtlX d.XDefaultRootWindow ++ "\n\n"
          ++ String.join (linesBefore ((walkTree d.server
                (d.XInternAtom "WM_NAME" false) (d.XInternAtom "STRING" false)
                d.XDefaultRootWindow 0).preorder 0)), ?_⟩
        rw [c4 d h3 (fun h => h4 (Or.inl h)) (fun h => h4 (Or.inr h))]
        unfold headerText
        simp only [String.append_assoc]

set_option maxRecDepth 100000 in
/-- C13, on a walk that fails at the window 4: the lines of 1, 2 and 5 stay in the file,
followed by the trailer. -/
theorem main_trailer_gap :
    (main (envOf gapServer)).file
      = some "File: x11wdump-2019.05.20-9h05.txt\n\nRoot: 0x1\n\nw:0x1 x:0 y:0 width:640 h:480 parent:0x0 root:0x1 class:InputOutput state:IsViewable allEvents:0x0() yourEvents:0x0 overrideRedirect:0\n  w:0x2 x:0 y:0 width:640 h:480 parent:0x1 root:0x1 class:InputOutput state:IsViewable allEvents:0x0() yourEvents:0x0 overrideRedirect:0\n    w:0x5 x:0 y:0 width:640 h:480 parent:0x1 root:0x1 class:InputOutput state:IsViewable allEvents:0x0() yourEvents:0x0 overrideRedirect:0\n\nDone.\n" :=
  ((main_trailer (envOf gapServer) exampleTm rfl rfl).2.2.2 (displayOf gapServer) rfl
    (by decide) (by decide)).trans (by decide)

/-- C14: whatever the clock, the file, the display, the atoms and the walk do, `main`
returns the exit status 0; the kind of error only selects the message on the standard
output, `SYSTEM ERROR:` for the clock and the file, `X11 ERROR:` for the display, the
atoms and the walk, and no message on success. -/
theorem main_status_zero (env : Env) :
    (main env).status = 0
      ∧ (env.localtime = none →
          (main env).stdout = "SYSTEM ERROR: localtime() failed!\n")
      ∧ (∀ tm, env.localtime = some tm → env.fopen (fileName tm) = false →
          (main env).stdout = "SYSTEM ERROR: " ++ ("fopen(" ++ fileName tm ++ ") failed!") ++ "\n")
      ∧ (∀ tm, env.localtime = some tm → env.fopen (fileName tm) = true →
          env.XOpenDisplay = none →
          (main env).stdout = "File: " ++ fileName tm ++ "\n"
            ++ "X11 ERROR: XOpenDisplay() failed!\n" ++ "  Done.\n\n")
      ∧ (∀ tm d, env.localtime = some tm → env.fopen (fileName tm) = true →
          env.XOpenDisplay = some d →
          (d.XInternAtom "WM_NAME" false = None ∨ d.XInternAtom "STRING" false = None) →
          (main env).stdout = "File: " ++ fileName tm ++ "\n"
            ++ "X11 ERROR: XInternAtom() failed!\n" ++ "  Done.\n\n")
      ∧ (∀ tm d, env.localtime = some tm → env.fopen (fileName tm) = true →
          env.XOpenDisplay = some d →
          d.XInternAtom "WM_NAME" false ≠ None → d.XInternAtom "STRING" false ≠ None →
          (main env).stdout = "File: " ++ fileName tm ++ "\n"
            ++ (if (mainCall tm d).1 = 0 then ""
                else "X11 ERROR: " ++ (mainCall tm d).2.gszErr ++ "\n")
            ++ "  Done.\n\n") := by
  refine ⟨rfl, ?_, ?_, ?_, ?_, ?_⟩
  · intro h
    rw [main_no_clock env h]
  · intro tm h1 h2
    rw [main_no_file env tm h1 h2]
  · intro tm h1 h2 h3
    rw [main_no_display env tm h1 h2 h3]
  · intro tm d h1 h2 h3 h4
    rw [main_no_atoms env tm d h1 h2 h3 h4]
  · intro tm d h1 h2 h3 h4 h5
    rw [main_walk env tm d h1 h2 h3 h4 h5]
    have hr : reportText (mainCall tm d).1 (mainCall tm d).2.gszErr
        = (if (mainCall tm d).1 = 0 then ""
            else "X11 ERROR: " ++ (mainCall tm d).2.gszErr ++ "\n") := by
      have he : (mainCall tm d).1 = 0 ∨ (mainCall tm d).1 = ERROR_WDUMP_X11 := by
        unfold mainCall
        rw [DumpWindow_spec]
        show errOf _ = 0 ∨ errOf _ = ERROR_WDUMP_X11
        unfold errOf
        split
        · exact Or.inl rfl
        · exact Or.inr rfl
      unfold reportText
      rcases he with he | he
      · rw [he]
        rfl
      · rw [he]
        rfl
    simp only [hr]

/-! ## The file name -/

theorem toDigitsCore_length_eq (k : Nat) :
    ∀ (fuel n : Nat), (k = 0 ∨ 10 ^ k ≤ n) → n < 10 ^ (k + 1) → k < fuel →
      (Nat.toDigitsCore 10 fuel n []).length = k + 1 := by
  induction k with
  | zero =>
      intro fuel n _ hn hf
      cases fuel with
      | zero => omega
      | succ f =>
          have h0 : n / 10 = 0 := by omega
          simp [Nat.toDigitsCore, h0]
  | succ k ih =>
      intro fuel n hlo hn hf
      cases fuel with
      | zero => omega
      | succ f =>
          have hlo2 : 10 ^ (k + 1) ≤ n := by
            rcases hlo with h | h
            · omega
            · exact h
          have hp : 0 < 10 ^ k := Nat.pow_pos (by decide)
          have e1 : 10 ^ (k + 1) = 10 ^ k * 10 := Nat.pow_succ _ _
          have e2 : 10 ^ (k + 1 + 1) = 10 ^ k * 10 * 10 := by rw [Nat.pow_succ, Nat.pow_succ]
          have h1 : 10 ^ k ≤ n / 10 := by omega
          have h2 : n / 10 < 10 ^ (k + 1) := by omega
          have h0 : n / 10 ≠ 0 := by omega
          rw [Nat.toDigitsCore]
          simp only [h0, if_false]
          rw [Nat.toDigitsCore_lens_eq, ih f (n / 10) (Or.inr h1) h2 (by omega)]

theorem repr_length (k n : Nat) (hlo : k = 0 ∨ 10 ^ k ≤ n) (hn : n < 10 ^ (k + 1)) :
    (Nat.repr n).length = k + 1 := by
  have hk : k < n + 1 := by
    rcases hlo with h | h
    · omega
    · have : k < 10 ^ k := Nat.lt_pow_self (by decide) k
      omega
  exact toDigitsCore_length_eq k (n + 1) n hlo hn hk

theorem zeros_length (n : Nat) : (zeros n).length = n := by
  simp [zeros, String.length]

theorem fmtD_of_nonneg (v : Int) (h : 0 ≤ v) : fmtD v = Nat.repr v.toNat := by
  unfold fmtD
  rw [if_neg (by omega)]
  congr 1
  omega

theorem fmt02d_small (v : Int) (h0 : 0 ≤ v) (h1 : v < 10) :
    fmt02d v = "0" ++ Nat.repr v.toNat := by
  have hl : (Nat.repr v.natAbs).length = 1 := repr_length 0 _ (Or.inl rfl) (by omega)
  have hv : v.natAbs = v.toNat := by omega
  unfold fmt02d
  rw [if_neg (by omega), hl, hv]
  rfl

theorem fmt02d_two (v : Int) (h0 : 10 ≤ v) (h1 : v < 100) :
    fmt02d v = Nat.repr v.toNat := by
  have hl : (Nat.repr v.natAbs).length = 2 := repr_length 1 _ (Or.inr (by omega)) (by omega)
  have hv : v.natAbs = v.toNat := by omega
  unfold fmt02d
  rw [if_neg (by omega), hl, hv]
  exact String.empty_append _

theorem fmt02d_length (v : Int) (h0 : 0 ≤ v) (h1 : v < 100) : (fmt02d v).length = 2 := by
  by_cases h : v < 10
  · rw [fmt02d_small v h0 h, String.length_append,
      repr_length 0 _ (Or.inl rfl) (by omega)]
    rfl
  · rw [fmt02d_two v (by omega) h1, repr_length 1 _ (Or.inr (by omega)) (by omega)]

theorem fmtD_length_hour (v : Int) (h0 : 0 ≤ v) (h1 : v ≤ 23) :
    (fmtD v).length = if v < 10 then 1 else 2 := by
  rw [fmtD_of_nonneg v h0]
  split
  · exact repr_length 0 _ (Or.inl rfl) (by omega)
  · exact repr_length 1 _ (Or.inr (by omega)) (by omega)

theorem fmtD_length_year (v : Int) (h0 : 1000 ≤ v) (h1 : v ≤ 9999) :
    (fmtD v).length = 4 := by
  rw [fmtD_of_nonneg v (by omega)]
  exact repr_length 3 _ (Or.inr (by omega)) (by omega)

/-- C12, as stated, fails at 9:05 on 20 May 2019: the hour is written `9`, not `09`, and
the name is one character shorter than at 10:05 the same day. -/
theorem fileName_hour_not_padded :
    fileName exampleTm = "x11wdump-2019.05.20-9h05.txt"
      ∧ paddedFileName exampleTm = "x11wdump-2019.05.20-09h05.txt"
      ∧ fileName exampleTm ≠ paddedFileName exampleTm
      ∧ (fileName exampleTm).length = 28
      ∧ (fileName { exampleTm with tm_hour := 10 }).length = 29 := by
  decide

/-- C12, amended: for every local time in range the file name is `x11wdump-`, the year,
`.`, the month, `.`, the day, `-`, the hour, `h`, the minute, `.txt`, where the month,
the day and the minute are padded with a zero to two digits and the hour is written
without padding: within a four-digit year the name has 28 characters for the hours 0 to 9
and 29 for the hours 10 to 23. -/
theorem fileName_format (tm : Tm) (hr : tm.InRange) :
    fileName tm
        = "x11wdump-" ++ fmtD (tm.tm_year + 1900) ++ "." ++ fmt02d (tm.tm_mon + 1) ++ "."
            ++ fmt02d tm.tm_mday ++ "-" ++ fmtD tm.tm_hour ++ "h" ++ fmt02d tm.tm_min ++ ".txt"
      ∧ (fmt02d (tm.tm_mon + 1)).length = 2
      ∧ (fmt02d tm.tm_mday).length = 2
      ∧ (fmt02d tm.tm_min).length = 2
      ∧ (∀ v : Int, 0 ≤ v → v < 10 → fmt02d v = "0" ++ Nat.repr v.toNat)
      ∧ (∀ v : Int, 10 ≤ v → v < 100 → fmt02d v = Nat.repr v.toNat)
      ∧ fmtD tm.tm_hour = Nat.repr tm.tm_hour.toNat
      ∧ (fmtD tm.tm_hour).length = (if tm.tm_hour < 10 then 1 else 2)
      ∧ (1000 ≤ tm.tm_year + 1900 → tm.tm_year + 1900 ≤ 9999 →
          (fileName tm).length = if tm.tm_hour < 10 then 28 else 29) := by
  obtain ⟨m0, m1, d0, d1, h0, h1, n0, n1⟩ := hr
  have lm := fmt02d_length (tm.tm_mon + 1) (by omega) (by omega)
  have ld := fmt02d_length tm.tm_mday (by omega) (by omega)
  have ln := fmt02d_length tm.tm_min n0 (by omega)
  have lh := fmtD_length_hour tm.tm_hour h0 h1
  refine ⟨rfl, lm, ld, ln, fmt02d_small, fmt02d_two, fmtD_of_nonneg _ h0, lh, ?_⟩
  intro y0 y1
  have ly := fmtD_length_year (tm.tm_year + 1900) y0 y1
  unfold fileName
  simp only [String.length_append, lm, ld, ln, lh, ly]
  have e1 : ("x11wdump-" : String).length = 9 := by decide
  have e2 : (".txt" : String).length = 4 := by decide
  have e3 : ("." : String).length = 1 := by decide
  have e4 : ("-" : String).length = 1 := by decide
  have e5 : ("h" : String).length = 1 := by decide
  rw [e1, e2, e3, e4, e5]
  split <;> rfl

/-- C12, amended, at 9:05 on 20 May 2019. -/
theorem fileName_format_example :
    (fileName exampleTm).length = 28 :=
  ((fileName_format exampleTm (by unfold Tm.InRange; decide)).2.2.2.2.2.2.2.2 (by decide)
    (by decide)).trans
    (by decide)

/-! ## The characters of the fields -/

theorem hexDigitChar_mem : ∀ d : Fin 16, hexDigitChar d.val ∈ hexChars := by
  decide

theorem hexDigitValue_char : ∀ d : Fin 16, hexDigitValue (hexDigitChar d.val) = d.val := by
  decide

theorem hexCore_chars (fuel : Nat) :
    ∀ (n : Nat) (acc : List Char), ∀ c ∈ hexCore fuel n acc, c ∈ acc ∨ c ∈ hexChars := by
  induction fuel with
  | zero => intro n acc c hc; left; simpa [hexCore] using hc
  | succ f ih =>
      intro n acc c hc
      have hd : hexDigitChar (n % 16) ∈ hexChars :=
        hexDigitChar_mem ⟨n % 16, Nat.mod_lt _ (by decide)⟩
      rw [hexCore] at hc
      split at hc
      · rcases List.mem_cons.mp hc with rfl | hc
        · right; exact hd
        · left; exact hc
      · rcases ih _ _ c hc with h | h
        · rcases List.mem_cons.mp h with rfl | h
          · right; exact hd
          · left; exact h
        · right; exact h

theorem fmtlX_chars (v : Int) : ∀ c ∈ (fmtlX v).data, c ∈ hexChars := by
  intro c hc
  rcases hexCore_chars 16 _ [] c hc with h | h
  · cases h
  · exact h

theorem hexValue_append (l : List Char) (c : Char) :
    hexValue (l ++ [c]) = 16 * hexValue l + hexDigitValue c := by
  unfold hexValue
  rw [List.foldl_append]
  rfl

theorem hexCore_value (fuel : Nat) :
    ∀ (n : Nat) (acc : List Char), n < 16 ^ fuel → fuel ≠ 0 →
      ∃ ds, hexCore fuel n acc = ds ++ acc ∧ hexValue ds = n := by
  induction fuel with
  | zero => intro n acc _ h; exact absurd rfl h
  | succ f ih =>
      intro n acc hn _
      have hv : hexDigitValue (hexDigitChar (n % 16)) = n % 16 :=
        hexDigitValue_char ⟨n % 16, Nat.mod_lt _ (by decide)⟩
      rw [hexCore]
      split
      · next h0 =>
          refine ⟨[hexDigitChar (n % 16)], rfl, ?_⟩
          have := hexValue_append [] (hexDigitChar (n % 16))
          simp only [List.nil_append] at this
          rw [this, hv]
          show 16 * 0 + n % 16 = n
          omega
      · next h0 =>
          have e : 16 ^ (f + 1) = 16 ^ f * 16 := Nat.pow_succ _ _
          have hlt : n / 16 < 16 ^ f := by omega
          have hf : f ≠ 0 := by
            intro hf0
            subst hf0
            simp at hlt
            exact h0 hlt
          obtain ⟨ds, hds, hval⟩ := ih (n / 16) (hexDigitChar (n % 16) :: acc) hlt hf
          refine ⟨ds ++ [hexDigitChar (n % 16)], ?_, ?_⟩
          · rw [hds]
            simp
          · rw [hexValue_append, hval, hv]
            omega

theorem fmtlX_value (v : Int) : hexValue (fmtlX v).data = (v % 2 ^ 64).toNat := by
  have hlt : (v % 2 ^ 64).toNat < 16 ^ 16 := by
    have h1 : v % 2 ^ 64 < 2 ^ 64 := Int.emod_lt_of_pos _ (by norm_num)
    have h2 : 0 ≤ v % 2 ^ 64 := Int.emod_nonneg _ (by norm_num)
    have e : (16 : Nat) ^ 16 = 2 ^ 64 := by norm_num
    omega
  obtain ⟨ds, hds, hval⟩ := hexCore_value 16 _ [] hlt (by decide)
  have hd : (fmtlX v).data = hexCore 16 (v % 2 ^ 64).toNat [] := rfl
  rw [hd, hds, List.append_nil, hval]

/-- The mask fields of a window whose decoded event list fits `szEvent`: the mask of all
clients is rendered as `allEvents:0x`, its value in upper-case hexadecimal, and the list
`Event2sz` decodes from it between parentheses; the list is the names of the set bits
joined by a bar and is empty, giving `()`, exactly when none of the 25 known bits is set;
the mask of this client is rendered as `yourEvents:0x` and its value in upper-case
hexadecimal, followed directly by ` overrideRedirect:`, with no list. -/
theorem event_masks_field (srv : Server) (a t : Atom) (w : Window) (d : Nat) (st : State)
    (attrib : XWindowAttributes) (h : srv.XGetWindowAttributes w = some attrib)
    (hfit : EventFits attrib.all_event_masks) :
    szEventOf attrib.all_event_masks = some (Event2sz attrib.all_event_masks)
      ∧ (∃ rest, (DumpWindow srv w a t d st).2.file
        = st.file ++ (ownLine srv a t d w attrib ++ rest))
      ∧ ownLine srv a t d w attrib
          = lineStart d w ++ (nameText (szNameOf (srv.XGetWindowProperty w a 0 4 false t)) ++ (
          "x:" ++ (fmtD attrib.x ++ (" y:" ++ (fmtD attrib.y ++ (" width:" ++ (
          fmtD attrib.width ++ (" h:" ++ (fmtD attrib.height ++ (" parent:0x" ++ (
          fmtlX (srv.XQueryTree w).wParent ++ (" root:0x" ++ (fmtlX attrib.root ++ (
          " class:" ++ (szClassOf attrib.class ++ (" state:" ++ (
          szStateOf attrib.map_state ++ (" allEvents:0x" ++ (
          fmtlX attrib.all_event_masks ++ ("(" ++ (Event2sz attrib.all_event_masks ++ (
          ")" ++ (" yourEvents:0x" ++ (fmtlX attrib.your_event_mask ++ (
          " overrideRedirect:" ++ (fmtD attrib.override_redirect ++ ("\n")))))))))))))))))))))))))))
      ∧ (∀ c ∈ (fmtlX attrib.all_event_masks).data, c ∈ hexChars)
      ∧ hexValue (fmtlX attrib.all_event_masks).data = (attrib.all_event_masks % 2 ^ 64).toNat
      ∧ (∀ c ∈ (fmtlX attrib.your_event_mask).data, c ∈ hexChars)
      ∧ hexValue (fmtlX attrib.your_event_mask).data = (attrib.your_event_mask % 2 ^ 64).toNat
      ∧ Event2sz attrib.all_event_masks
          = String.intercalate "|" (setNames attrib.all_event_masks)
      ∧ (Event2sz attrib.all_event_masks = ""
          ↔ ∀ i : Nat, i < 25 → attrib.all_event_masks.testBit i = false) := by
  refine ⟨if_pos hfit, DumpWindow_own_line srv a t w d st attrib h, ownLine_layout srv a t d w attrib,
    fmtlX_chars _, fmtlX_value _, fmtlX_chars _, fmtlX_value _, Event2sz_eq_join _, ?_⟩
  rw [Event2sz_eq_join, join_eq_empty_iff _ (setNames_ne _), setNames_eq_nil_iff]

set_option maxRecDepth 100000 in
/-- The mask fields on the masks 0x420005 for all clients and 0x8000 for this client. -/
theorem event_masks_field_example :
    ownLine maskServer 39 31 0 1 maskAttrib
      = "w:0x1 x:0 y:0 width:640 h:480 parent:0x0 root:0x1 class:InputOutput state:IsViewable allEvents:0x420005(KeyPrs|ButPrs|StrNot|PropChng) yourEvents:0x8000 overrideRedirect:0\n" :=
  ((event_masks_field maskServer 39 31 1 0 { file := "", gszErr := "" } maskAttrib
    rfl (by unfold EventFits; decide)).2.2.1).trans (by decide)

set_option maxRecDepth 100000 in
/-- C16: the code breaks the claim at the mask of all clients with all 25 known bits set:
the list `Event2sz` decodes from it has 211 characters, so the call
`Event2sz(attrib.all_event_masks, szEvent)` writes 212 bytes into the `LNSZ = 200` bytes
of `szEvent`, past its end, and the source does not determine the text between the
parentheses of `allEvents:`; on the mask 0x420005 the list fits and is the text rendered. -/
theorem event_list_overrun :
    fullMaskAttrib.all_event_masks = 0x1FFFFFF
      ∧ (Event2sz fullMaskAttrib.all_event_masks).length = 211
      ∧ LNSZ = 200
      ∧ ¬ EventFits fullMaskAttrib.all_event_masks
      ∧ szEventOf fullMaskAttrib.all_event_masks = none
      ∧ EventFits maskAttrib.all_event_masks
      ∧ szEventOf maskAttrib.all_event_masks = some "KeyPrs|ButPrs|StrNot|PropChng" := by
  refine ⟨rfl, by decide, rfl, ?_, by decide, ?_, by decide⟩
  · unfold EventFits
    decide
  · unfold EventFits
    decide

/-! ## Termination and depth -/

theorem sizeKids_map_le (f : Window → WTree) (M : Nat) (hf : ∀ c, (f c).size ≤ M)
    (cs : List Window) : WTree.sizeKids (cs.map f) ≤ cs.length * M := by
  induction cs with
  | nil => simp [WTree.sizeKids]
  | cons c rest ih =>
      rw [List.map_cons, WTree.sizeKids, List.length_cons, Nat.succ_mul]
      have := hf c
      omega

theorem heightKids_map_le (f : Window → WTree) (M : Nat) (hf : ∀ c, (f c).height ≤ M)
    (cs : List Window) : WTree.heightKids (cs.map f) ≤ M + 1 := by
  induction cs with
  | nil => simp [WTree.heightKids]
  | cons c rest ih =>
      rw [List.map_cons, WTree.heightKids]
      have := hf c
      exact max_le (by omega) ih

theorem levelSum_succ (b k : Nat) :
    (Finset.range (k + 1 + 1)).sum (fun i => b ^ i)
      = 1 + b * (Finset.range (k + 1)).sum (fun i => b ^ i) := by
  rw [Finset.sum_range_succ', Finset.mul_sum, Nat.add_comm]
  simp [pow_succ, Nat.mul_comm]

theorem reachTree_height (srv : Server) (a t : Atom) :
    ∀ (r : Nat) (w : Window) (L : Nat), (reachTree srv a t r w L).height ≤ r := by
  intro r
  induction r with
  | zero =>
      intro w L
      cases h : srv.XGetWindowAttributes w with
      | none => rw [reachTree_broken srv a t 0 w L h, WTree.height]
      | some attrib => rw [reachTree_zero srv a t w L attrib h, WTree.height, WTree.heightKids]
  | succ r ih =>
      intro w L
      cases h : srv.XGetWindowAttributes w with
      | none =>
          rw [reachTree_broken srv a t (r + 1) w L h, WTree.height]
          omega
      | some attrib =>
          rw [reachTree_succ srv a t r w L attrib h, WTree.height]
          split
          · exact heightKids_map_le _ r (fun c => ih c (L + 1)) _
          · rw [WTree.heightKids]
            omega

theorem reachTree_size (srv : Server) (a t : Atom) (b : Nat)
    (hb : ∀ w, ((srv.XQueryTree w).pChildren.getD []).length ≤ b) :
    ∀ (r : Nat) (w : Window) (L : Nat),
      (reachTree srv a t r w L).size ≤ (Finset.range (r + 1)).sum (fun i => b ^ i) := by
  intro r
  induction r with
  | zero =>
      intro w L
      cases h : srv.XGetWindowAttributes w with
      | none => rw [reachTree_broken srv a t 0 w L h, WTree.size]; simp
      | some attrib =>
          rw [reachTree_zero srv a t w L attrib h, WTree.size, WTree.sizeKids]
          simp
  | succ r ih =>
      intro w L
      rw [levelSum_succ]
      cases h : srv.XGetWindowAttributes w with
      | none =>
          rw [reachTree_broken srv a t (r + 1) w L h, WTree.size]
          omega
      | some attrib =>
          rw [reachTree_succ srv a t r w L attrib h, WTree.size]
          split
          · have h1 := sizeKids_map_le (fun c => reachTree srv a t r c (L + 1)) _
              (fun c => ih c (L + 1)) ((srv.XQueryTree w).pChildren.getD [])
            have h2 := Nat.mul_le_mul_right
              ((Finset.range (r + 1)).sum (fun i => b ^ i)) (hb w)
            omega
          · rw [WTree.sizeKids]
            omega

theorem linesBefore_length_le (vs : List (Nat × WTree)) :
    (linesBefore vs).length ≤ vs.length := by
  unfold linesBefore
  rw [List.length_map]
  exact (List.takeWhile_sublist _).length_le

theorem solves_DumpWindow (srv : Server) (a t : Atom) :
    Solves srv a t (fun w L st => DumpWindow srv w a t L st) :=
  ⟨fun w L st h => DumpWindow_failed srv a t w L st h,
    fun w L st attrib h => DumpWindow_unfold srv a t w L st attrib h⟩

theorem solves_unique (srv : Server) (a t : Atom)
    (F : Window → Nat → State → Int × State) (hF : Solves srv a t F) :
    ∀ (k L : Nat), WDUMP_MAXLEVEL - L ≤ k →
      ∀ (w : Window) (st : State), F w L st = DumpWindow srv w a t L st := by
  intro k
  induction k with
  | zero =>
      intro L hk w st
      cases h : srv.XGetWindowAttributes w with
      | none => rw [hF.1 w L st h, DumpWindow_failed srv a t w L st h]
      | some attrib =>
          have hg : ¬ (L < WDUMP_MAXLEVEL ∧ (srv.XQueryTree w).iRet ≠ 0) :=
            fun hg => absurd hg.1 (by omega)
          rw [hF.2 w L st attrib h, DumpWindow_unfold srv a t w L st attrib h,
            if_neg hg, if_neg hg]
  | succ k ih =>
      intro L hk w st
      cases h : srv.XGetWindowAttributes w with
      | none => rw [hF.1 w L st h, DumpWindow_failed srv a t w L st h]
      | some attrib =>
          rw [hF.2 w L st attrib h, DumpWindow_unfold srv a t w L st attrib h]
          have he : (fun ch s => F ch (L + 1) s)
              = (fun ch s => DumpWindow srv ch a t (L + 1) s) := by
            funext ch s
            exact ih (L + 1) (by omega) ch s
          rw [he]

theorem reachTree_depths (srv : Server) (a t : Atom) :
    ∀ (r : Nat) (w : Window) (L : Nat), ∀ v ∈ (reachTree srv a t r w L).preorder L,
      L ≤ v.1 ∧ v.1 ≤ L + r := by
  intro r
  induction r with
  | zero =>
      intro w L v hv
      cases h : srv.XGetWindowAttributes w with
      | none =>
          rw [reachTree_broken srv a t 0 w L h, WTree.preorder] at hv
          rw [List.mem_singleton.mp hv]
          exact ⟨le_refl _, le_refl _⟩
      | some attrib =>
          rw [reachTree_zero srv a t w L attrib h, WTree.preorder, WTree.preorderKids] at hv
          rw [List.mem_singleton.mp hv]
          exact ⟨le_refl _, le_refl _⟩
  | succ r ih =>
      intro w L v hv
      cases h : srv.XGetWindowAttributes w with
      | none =>
          rw [reachTree_broken srv a t (r + 1) w L h, WTree.preorder] at hv
          rw [List.mem_singleton.mp hv]
          exact ⟨le_refl _, by show L ≤ L + (r + 1); omega⟩
      | some attrib =>
          rw [reachTree_succ srv a t r w L attrib h, WTree.preorder] at hv
          rcases List.mem_cons.mp hv with hv | hv
          · rw [hv]
            exact ⟨le_refl _, by show L ≤ L + (r + 1); omega⟩
          · obtain ⟨k, hk, hvk⟩ := mem_preorderKids _ _ v hv
            split at hk
            · obtain ⟨c, _, rfl⟩ := List.mem_map.mp hk
              have := ih c (L + 1) v hvk
              omega
            · cases hk

/-- C17: on every server, cyclic or endlessly deep ones included, whose tree queries
enumerate at most `b` children, `DumpWindow` from every depth `d` reaches a tree of at
most `10 - d` levels below the start and of at most `1 + b + ... + b^(10-d)` windows, and
writes at most that many records (at most `1 + b + ... + b^10` from depth 0); the
recursion of the source, which goes down on `10 - depth`, has `DumpWindow` as its one
solution. -/
theorem DumpWindow_terminates (srv : Server) (a t : Atom) (b : Nat) (w : Window) (d : Nat)
    (st : State) (hb : ∀ x, ((srv.XQueryTree x).pChildren.getD []).length ≤ b) :
    (walkTree srv a t w d).height ≤ WDUMP_MAXLEVEL - d
      ∧ (walkTree srv a t w d).size
          ≤ (Finset.range (WDUMP_MAXLEVEL - d + 1)).sum (fun i => b ^ i)
      ∧ (DumpWindow srv w a t d st).2.file
          = st.file ++ String.join (linesBefore ((walkTree srv a t w d).preorder d))
      ∧ (linesBefore ((walkTree srv a t w d).preorder d)).length
          ≤ (Finset.range (WDUMP_MAXLEVEL - d + 1)).sum (fun i => b ^ i)
      ∧ (linesBefore ((walkTree srv a t w 0).preorder 0)).length
          ≤ (Finset.range 11).sum (fun i => b ^ i)
      ∧ Solves srv a t (fun x L s => DumpWindow srv x a t L s)
      ∧ (∀ F : Window → Nat → State → Int × State, Solves srv a t F →
          ∀ (x : Window) (L : Nat) (s : State), F x L s = DumpWindow srv x a t L s) := by
  have hsize : ∀ L, (linesBefore ((walkTree srv a t w L).preorder L)).length
      ≤ (Finset.range (WDUMP_MAXLEVEL - L + 1)).sum (fun i => b ^ i) := by
    intro L
    refine le_trans (linesBefore_length_le _) ?_
    rw [preorder_length]
    exact reachTree_size srv a t b hb _ w L
  refine ⟨reachTree_height srv a t _ w d, reachTree_size srv a t b hb _ w d, ?_, hsize d,
    hsize 0, solves_DumpWindow srv a t, ?_⟩
  · rw [DumpWindow_spec]
    rfl
  · intro F hF x L s
    exact solves_unique srv a t F hF (WDUMP_MAXLEVEL - L) L (le_refl _) x s

/-- C17, on the cyclic server where the window 1 is its own child: the walk reaches 11
windows, one per level from 0 to 10. -/
theorem DumpWindow_terminates_loop :
    (walkTree loopServer 39 31 1 0).size ≤ 11 ∧ (walkTree loopServer 39 31 1 0).size = 11
      ∧ (walkTree loopServer 39 31 1 0).height = 10 :=
  ⟨(DumpWindow_terminates loopServer 39 31 1 1 0 { file := "", gszErr := "" }
      (fun _ => Nat.le_refl 1)).2.1.trans (by simp [WDUMP_MAXLEVEL]),
    by decide, by decide⟩

/-- C18: in a walk started at depth 0 every window is met at a depth from 0 to 10, so
the index `2 * depth` of the terminator of the indent is at most 20 and lies inside the
buffer of `LNSZ = 200` bytes; a call at depth `L` makes its recursive calls at depth
`L + 1`, and only when `L < 10`. -/
theorem depth_invariant (srv : Server) (a t : Atom) (w : Window) :
    (∀ v ∈ (walkTree srv a t w 0).preorder 0,
        v.1 ≤ WDUMP_MAXLEVEL ∧ 2 * v.1 ≤ 20 ∧ 2 * v.1 < LNSZ
          ∧ (szSpaceOf v.1).length = 2 * v.1)
      ∧ (∀ (x : Window) (L : Nat) (st : State) (attrib : XWindowAttributes),
          srv.XGetWindowAttributes x = some attrib →
          L < WDUMP_MAXLEVEL → (srv.XQueryTree x).iRet ≠ 0 →
          DumpWindow srv x a t L st
            = childLoop (fun ch s => DumpWindow srv ch a t (L + 1) s)
                ((srv.XQueryTree x).pChildren.getD []) 0
                (st.write (ownLine srv a t L x attrib)))
      ∧ (∀ (x : Window) (L : Nat) (st : State) (attrib : XWindowAttributes),
          srv.XGetWindowAttributes x = some attrib → WDUMP_MAXLEVEL ≤ L →
          DumpWindow srv x a t L st = (0, st.write (ownLine srv a t L x attrib)))
      ∧ (∀ (L : Nat), ∀ v ∈ (walkTree srv a t w L).preorder L,
          L ≤ v.1 ∧ v.1 ≤ max L WDUMP_MAXLEVEL) := by
  have hgen : ∀ (L : Nat), ∀ v ∈ (walkTree srv a t w L).preorder L,
      L ≤ v.1 ∧ v.1 ≤ max L WDUMP_MAXLEVEL := by
    intro L v hv
    have := reachTree_depths srv a t (WDUMP_MAXLEVEL - L) w L v hv
    refine ⟨this.1, ?_⟩
    rw [le_max_iff]
    omega
  refine ⟨?_, ?_, ?_, hgen⟩
  · intro v hv
    have h := (hgen 0 v hv).2
    have h10 : v.1 ≤ WDUMP_MAXLEVEL := by simpa using h
    have hm : WDUMP_MAXLEVEL = 10 := rfl
    have hl : LNSZ = 200 := rfl
    refine ⟨h10, by omega, by omega, ?_⟩
    rw [szSpaceOf_eq, spaces_length]
  · intro x L st attrib h hL hq
    rw [DumpWindow_unfold srv a t x L st attrib h, if_pos ⟨hL, hq⟩]
  · intro x L st attrib h hL
    exact DumpWindow_leaf srv a t x L st attrib h (fun hg => absurd hg.1 (by omega))

theorem go_length (l : List String) : ∀ acc : String,
    (String.intercalate.go acc "|" l).length
      = acc.length + (l.map (fun a => a.length + 1)).sum := by
  induction l with
  | nil => intro acc; simp [String.intercalate.go]
  | cons a t ih =>
      intro acc
      rw [String.intercalate.go, ih, String.length_append, String.length_append,
        List.map_cons, List.sum_cons]
      have : ("|" : String).length = 1 := by decide
      omega

theorem join_length_succ_le (l : List String) (hl : l ≠ []) :
    (String.intercalate "|" l).length + 1 = (l.map (fun a => a.length + 1)).sum := by
  cases l with
  | nil => exact absurd rfl hl
  | cons a t =>
      rw [String.intercalate, go_length, List.map_cons, List.sum_cons]
      omega

theorem Event2sz_length_le (m : Int) : (Event2sz m).length ≤ 211 := by
  rw [Event2sz_eq_join]
  by_cases hl : setNames m = []
  · rw [hl]
    decide
  · have h1 := join_length_succ_le (setNames m) hl
    have h2 : ((setNames m).map (fun a => a.length + 1)).sum
        ≤ ((canonicalNames.map Prod.snd).map (fun a => a.length + 1)).sum :=
      List.Sublist.sum_le_sum ((setNames_sublist m).map _) (fun _ _ => Nat.zero_le _)
    have h3 : ((canonicalNames.map Prod.snd).map (fun a => a.length + 1)).sum = 212 := by
      decide
    omega

set_option maxRecDepth 100000 in
/-- C19: the code breaks the claim at the mask with all 25 known bits set: the decoded
list has 211 characters, so with its terminating NUL it needs 212 bytes and does not fit
the `LNSZ = 200` bytes of `szEvent`. -/
theorem Event2sz_overflow :
    (Event2sz 0x1FFFFFF).length = 211
      ∧ ¬ ((Event2sz 0x1FFFFFF).length ≤ 199)
      ∧ LNSZ < (Event2sz 0x1FFFFFF).length + 1
      ∧ (Event2sz 0x1FFFFFF)
          = "KeyPrs|KeyRel|ButPrs|ButRel|EntWin|LeavWin|PntrMot|PntrMotHint|But1Mot|But2Mot|But3Mot|But4Mot|But5Mot|ButMot|KeymapState|Expos|VisChng|StrNot|ResizRedir|SubstrNot|SubstrRedir|FocChng|PropChng|CmapChng|OwnGrbBut" := by
  decide

theorem cText_length_le (p : String) : (cText p).length ≤ p.length := by
  show (p.data.takeWhile _).length ≤ p.data.length
  exact (List.takeWhile_sublist _).length_le

/-- C20: `DumpWindow` asks for the name with the offset 0 and the length 4, in units of
32 bits; when the server hands back at most `4 * 4 = 16` bytes for this request, the
name rendered after `NAME:` has at most 16 characters. -/
theorem name_at_most_16 (srv : Server) (a t : Atom) (w : Window) (d : Nat) (st : State)
    (attrib : XWindowAttributes) (h : srv.XGetWindowAttributes w = some attrib)
    (hon : ∀ p, (srv.XGetWindowProperty w a 0 4 false t).pProperty = some p →
      p.length ≤ 4 * 4) :
    (szNameOf (srv.XGetWindowProperty w a 0 4 false t)).length ≤ 16
      ∧ ownLine srv a t d w attrib
          = lineOf d w attrib (srv.XGetWindowProperty w a 0 4 false t)
              (srv.XQueryTree w).wParent
      ∧ (∃ rest, (DumpWindow srv w a t d st).2.file
          = st.file ++ (lineStart d w
              ++ (nameText (szNameOf (srv.XGetWindowProperty w a 0 4 false t)) ++ rest))) := by
  refine ⟨?_, rfl, ?_⟩
  · unfold szNameOf
    cases hp : (srv.XGetWindowProperty w a 0 4 false t).pProperty with
    | none => simp
    | some p =>
        simp only
        split
        · have h1 := hon p hp
          have h2 := cText_length_le p
          show ((cText p).data.take (LNSZ - 1)).length ≤ 16
          rw [List.length_take]
          have h3 : (cText p).data.length = (cText p).length := rfl
          omega
        · simp
  · obtain ⟨rest, hr⟩ := DumpWindow_own_line srv a t w d st attrib h
    refine ⟨attrText attrib (srv.XQueryTree w).wParent (szClassOf attrib.class)
      (szStateOf attrib.map_state) (Event2sz attrib.all_event_masks) ++ rest, ?_⟩
    rw [hr]
    unfold ownLine
    rw [lineOf_start]
    simp only [String.append_assoc]

/-- C20, on the window named `xterm`: five characters. -/
theorem name_at_most_16_xterm :
    (szNameOf (namedServer.XGetWindowProperty 2 39 0 4 false 31)).length ≤ 16 :=
  (name_at_most_16 namedServer 39 31 2 1 { file := "", gszErr := "" } exampleAttrib rfl
    (fun p hp => by
      have e : p = "xterm" := (Option.some.inj hp).symm
      subst e
      decide)).1

end X11wdump
